import Mathlib

/-!
# Pion: events, codecs and the TCP server

A shallow embedding of the parts of Pion that the specification makes claims
about: the event comparison used by the codec tests
(`platform/tests/CodecTests.cpp`), the Log codec contract those tests exercise,
the accept loop and connection pool of `TCPServer` (`src/lib/TCPServer.cpp`),
the event routing and statistics of `ReactionEngine`
(`platform/include/pion/platform/ReactionEngine.hpp`), the event processing, the
life cycle and the instance counter of `PythonReactor`
(`platform/reactors/PythonReactor.cpp`), and the response of `HelloService`
(`services/HelloService.cpp`).

Definitions come first, theorems after them.
-/

namespace Pion

/-! ## Events -/

/-- Modelled from the spec: a term reference, `Vocabulary::TermRef` (Vocabulary.hpp is
not among the sources). -/
abbrev TermRef := Nat

/-- Modelled from the spec: `Vocabulary::UNDEFINED_TERM_REF` (Vocabulary.hpp is not
among the sources), the reference that stands for "no term"; an unconfigured codec has
it as its event type. -/
def UNDEFINED_TERM_REF : TermRef := 0

/-- Modelled from the spec: one entry of an event, the pair the iterators of
`operator==` dereference to (`it->term_ref`, `it->value`); Event.hpp is not among the
sources. The value type `V` is left open: the comparison only needs its `==`. -/
structure Entry (V : Type) where
  term_ref : TermRef
  value : V
deriving DecidableEq, Repr

/-- Modelled from the spec: an event (Event.hpp is not among the sources), "an ordered
collection of (term-ref, tagged value) pairs with a declared event-type", iterated in
insertion order from `begin()` to `end()`. -/
structure Event (V : Type) where
  m_event_type : TermRef
  entries : List (Entry V)
deriving DecidableEq, Repr

/-- The loop of `operator==(const Event&, const Event&)` (CodecTests.cpp:342-355) on the
two iterator positions: while neither iterator is at the end, a differing `term_ref` or
a value that is not `==` returns false; after the loop the result is whether both
iterators are at the end. -/
def eventEqLoop {V : Type} [BEq V] : List (Entry V) → List (Entry V) → Bool
  | a :: rest_1, b :: rest_2 =>
      if a.term_ref != b.term_ref then false
      else if !(a.value == b.value) then false
      else eventEqLoop rest_1 rest_2
  | it_1, it_2 => it_1.isEmpty && it_2.isEmpty

/-- The tests' `operator==(const Event& e1, const Event& e2)`: the loop started at
`e1.begin()` and `e2.begin()`. -/
def Event.operatorEq {V : Type} [BEq V] (e1 e2 : Event V) : Bool :=
  eventEqLoop e1.entries e2.entries

/-- Modelled from the spec: `EventFactory::create(type)` (Event.hpp is not among the
sources): a fresh event of the given type with no entries. -/
def EventFactory.create {V : Type} (event_type : TermRef) : Event V :=
  { m_event_type := event_type, entries := [] }

/-- Modelled from the spec: the typed setters `setUInt`, `setString`, ... (Event.hpp is
not among the sources): "insertion" appends one entry, entries being iterated "in
insertion order". -/
def Event.set {V : Type} (e : Event V) (term_ref : TermRef) (value : V) : Event V :=
  { e with entries := e.entries ++ [{ term_ref := term_ref, value := value }] }

/-- Modelled from the spec: lookup behind `Event::find` (Event.hpp is not among the
sources): the first value stored under a term in a list of entries. -/
def findValue {V : Type} : List (Entry V) → TermRef → Option V
  | [], _ => none
  | a :: rest, t => if a.term_ref = t then some a.value else findValue rest t

/-- Modelled from the spec: `Event::find(term_ref)` (Event.hpp is not among the
sources): the first value stored under the term, if any. -/
def Event.find {V : Type} (e : Event V) (term_ref : TermRef) : Option V :=
  findValue e.entries term_ref

/-! ## Log codec -/

/-- Modelled from the spec: the type tag of a vocabulary term (Vocabulary.hpp is not among
the sources). The spec's tags are string, unsigned integer, signed integer, float,
double, datetime and object; the tags whose text form the Log codec wire section fixes
exactly are kept, floating point and opaque objects are left out. -/
inductive TermType where
  | string : TermType
  | unsigned_integer : TermType
  | signed_integer : TermType
  | datetime : TermType
deriving DecidableEq, Repr

/-- Modelled from the spec: a `PionDateTime` value, a calendar date and a time of day. -/
structure PionDateTime where
  year : Nat
  month : Nat
  day : Nat
  hour : Nat
  minute : Nat
  second : Nat
deriving DecidableEq, Repr

/-- Modelled from the spec: the tagged value of an event entry (Event.hpp is not among
the sources). Strings are character lists; integers are unbounded. -/
inductive ParameterValue where
  | string (s : List Char) : ParameterValue
  | uint (n : Nat) : ParameterValue
  | int (i : Int) : ParameterValue
  | datetime (d : PionDateTime) : ParameterValue
deriving DecidableEq, Repr

/-- Modelled from the spec: the type tag a value carries (Event.hpp is not among the
sources). -/
def ParameterValue.type : ParameterValue → TermType
  | ParameterValue.string _ => TermType.string
  | ParameterValue.uint _ => TermType.unsigned_integer
  | ParameterValue.int _ => TermType.signed_integer
  | ParameterValue.datetime _ => TermType.datetime

/-- Modelled from the spec: the line terminator of a record, `\x0A` (LogCodec.cpp is not
among the sources). -/
def NEWLINE : Char := Char.ofNat 10

/-- Modelled from the spec: the single space between two fields of a record
(LogCodec.cpp is not among the sources). -/
def SPACE : Char := Char.ofNat 32

/-- Modelled from the spec: the `-` that stands for a field the event does not define
(LogCodec.cpp is not among the sources). -/
def DASH : Char := Char.ofNat 45

/-- Modelled from the spec: the double quote that encloses a string with blanks, and the
request field of the common log format (LogCodec.cpp and the codec configuration file
are not among the sources). -/
def QUOTE : Char := Char.ofNat 34

/-- Modelled from the spec: the decimal digit character of a number below ten, for the
text of integer fields (LogCodec.cpp is not among the sources). -/
def digitChar (d : Nat) : Char := Char.ofNat (48 + d)

/-- Modelled from the spec: decimal digits of `n`, most significant first, in front of
`acc` (LogCodec.cpp is not among the sources). -/
def renderNatAux : Nat → Nat → List Char → List Char
  | 0, _, acc => acc
  | fuel + 1, n, acc =>
      if n < 10 then digitChar n :: acc
      else renderNatAux fuel (n / 10) (digitChar (n % 10) :: acc)

/-- Modelled from the spec: text of an unsigned integer field, its decimal digits
(LogCodec.cpp is not among the sources). -/
def renderNat (n : Nat) : List Char := renderNatAux (n + 1) n []

/-- Modelled from the spec: text of a signed integer field, a minus sign for negative
numbers, then the digits (LogCodec.cpp is not among the sources). -/
def renderInt (i : Int) : List Char :=
  if i < 0 then DASH :: renderNat i.natAbs else renderNat i.natAbs

/-- Modelled from the spec: the month abbreviations of the `Mon` part of the datetime
pattern (the date facet is not among the sources). -/
def monthNames : List (List Char) :=
  ["Jan".toList, "Feb".toList, "Mar".toList, "Apr".toList, "May".toList, "Jun".toList,
   "Jul".toList, "Aug".toList, "Sep".toList, "Oct".toList, "Nov".toList, "Dec".toList]

/-- Modelled from the spec: abbreviation of month `m`, 1 to 12 (the date facet is not
among the sources). -/
def monthName (m : Nat) : List Char := monthNames.getD (m - 1) "???".toList

/-- Modelled from the spec: the two decimal digits of `DD`, `HH`, `MM` and `SS` (the
date facet is not among the sources). -/
def pad2 (n : Nat) : List Char := [digitChar (n / 10 % 10), digitChar (n % 10)]

/-- Modelled from the spec: the four decimal digits of `YYYY` (the date facet is not
among the sources). -/
def pad4 (n : Nat) : List Char :=
  [digitChar (n / 1000 % 10), digitChar (n / 100 % 10), digitChar (n / 10 % 10),
   digitChar (n % 10)]

/-- Modelled from the spec: text of a datetime in the pattern
`DD/Mon/YYYY:HH:MM:SS ZZZZ` of the Log codec wire section. The zone part is written
empty, as in the expected output of the tests (`[10/Jan/2008:12:31:00 ]`), so the text
ends with the blank that precedes it. -/
def renderDateTime (d : PionDateTime) : List Char :=
  pad2 d.day ++ '/' :: (monthName d.month ++ '/' :: (pad4 d.year ++ ':' :: (pad2 d.hour ++
    ':' :: (pad2 d.minute ++ ':' :: (pad2 d.second ++ [SPACE])))))

/-- Modelled from the spec: one entry of a Log codec's ordered field map
(LogCodec.hpp is not among the sources): the field name, the term it is bound to and
that term's type, and the optional pair of characters that enclose the field's text
(the descriptor's "delimiter, quoting": `[` and `]` around the date, double quotes
around the request in the common log format). A field that has them is enclosed
whatever its value: the tests expect the quotes around an undefined request and around
a referer without blanks. -/
structure LogField where
  log_field : List Char
  log_term_ref : TermRef
  log_term_type : TermType
  log_delimiters : Option (Char × Char)
deriving DecidableEq, Repr

/-- Modelled from the spec: a Log codec (Codec.hpp and LogCodec.hpp are not among the
sources), with the attributes its `read` and `write` depend on: the event type and the
ordered field map. A codec that has not been configured has the undefined event type
and no fields. -/
structure LogCodec where
  m_event_type : TermRef
  m_field_map : List LogField
deriving DecidableEq, Repr

/-- Modelled from the spec: the codec a plugin's `create()` returns, not configured. -/
def LogCodec.create : LogCodec :=
  { m_event_type := UNDEFINED_TERM_REF, m_field_map := [] }

/-- Modelled from the spec: the text of a value inside a record (LogCodec.cpp is not
among the sources). "Records are newline-terminated" and "each record is a single line",
so a line terminator inside a string is not written as such: a blank is written in its
place. Integers and datetimes are written as `renderValue` gives them. -/
def recordText : ParameterValue → List Char
  | ParameterValue.string s => s.map (fun ch => if ch = NEWLINE then SPACE else ch)
  | ParameterValue.uint n => renderNat n
  | ParameterValue.int i => renderInt i
  | ParameterValue.datetime d => renderDateTime d

/-- Modelled from the spec: the text of one field of a record. A field the event does
not define is written as `-`, or, when the field has enclosing characters, as the two
enclosing characters with nothing between them (the tests expect
`192.168.0.1 - - [] "" - -`); a defined field is the text of its value, enclosed when
the field has enclosing characters; in a field without enclosing characters a string
that contains a blank is enclosed in double quotes ("string fields containing spaces are
enclosed in double quotes"). -/
def writeField (f : LogField) : Option ParameterValue → List Char
  | none =>
      match f.log_delimiters with
      | none => [DASH]
      | some (ds, de) => [ds, de]
  | some v =>
      match f.log_delimiters with
      | none =>
          if v.type = TermType.string ∧ SPACE ∈ recordText v then
            QUOTE :: (recordText v ++ [QUOTE])
          else recordText v
      | some (ds, de) => ds :: (recordText v ++ [de])

/-- Modelled from the spec: the fields of a record "in declared order", "separated by
single spaces". -/
def writeFields : List LogField → List (Entry ParameterValue) → List Char
  | [], _ => []
  | f :: fs, es =>
      match fs with
      | [] => writeField f (findValue es f.log_term_ref)
      | _ :: _ => writeField f (findValue es f.log_term_ref) ++ SPACE :: writeFields fs es

/-- Modelled from the spec: `LogCodec::write(stream, event)` (LogCodec.cpp is not among
the sources), returning the bytes appended to the stream: one record, "newline
terminated". -/
def LogCodec.write (c : LogCodec) (e : Event ParameterValue) : List Char :=
  writeFields c.m_field_map e.entries ++ [NEWLINE]

/-- Modelled from the spec: reference of `urn:vocab:clickstream#http-request`, the event
type of the tests' codecs. The vocabulary file is not among the sources; the references
the tests look up by name only need to be distinct and different from the undefined
reference. -/
def HTTP_REQUEST_REF : TermRef := 100

/-- Modelled from the spec: reference of `urn:vocab:clickstream#remotehost`. -/
def REMOTEHOST_REF : TermRef := 1

/-- Modelled from the spec: reference of `urn:vocab:clickstream#rfc931`. -/
def RFC931_REF : TermRef := 2

/-- Modelled from the spec: reference of `urn:vocab:clickstream#authuser`. -/
def AUTHUSER_REF : TermRef := 3

/-- Modelled from the spec: reference of `urn:vocab:clickstream#date`. -/
def DATE_REF : TermRef := 4

/-- Modelled from the spec: reference of `urn:vocab:clickstream#request`. -/
def REQUEST_REF : TermRef := 5

/-- Modelled from the spec: reference of `urn:vocab:clickstream#status`. -/
def STATUS_REF : TermRef := 6

/-- Modelled from the spec: reference of `urn:vocab:clickstream#bytes`. -/
def BYTES_REF : TermRef := 7

/-- Modelled from the spec: reference of `urn:vocab:clickstream#useragent`. -/
def USERAGENT_REF : TermRef := 9

/-- The event of `checkReadOutputOfWrite`: `setUInt(bytes_ref, 42)`. -/
def bytesEvent : Event ParameterValue :=
  (EventFactory.create HTTP_REQUEST_REF).set BYTES_REF (ParameterValue.uint 42)

/-- Modelled from the spec: the common log format codec of the tests (the codec
configuration file is not among the sources), with the fields of scenario A:
remotehost, rfc931, authuser, date (in brackets), request (in quotes), status, bytes;
the enclosing characters are those of the tests' expected output
`192.168.0.1 - - [] "" - -`. -/
def commonLogCodec : LogCodec :=
  { m_event_type := HTTP_REQUEST_REF
    m_field_map :=
      [{ log_field := "remotehost".toList, log_term_ref := REMOTEHOST_REF,
         log_term_type := TermType.string, log_delimiters := none },
       { log_field := "rfc931".toList, log_term_ref := RFC931_REF,
         log_term_type := TermType.string, log_delimiters := none },
       { log_field := "authuser".toList, log_term_ref := AUTHUSER_REF,
         log_term_type := TermType.string, log_delimiters := none },
       { log_field := "date".toList, log_term_ref := DATE_REF,
         log_term_type := TermType.datetime, log_delimiters := some ('[', ']') },
       { log_field := "request".toList, log_term_ref := REQUEST_REF,
         log_term_type := TermType.string, log_delimiters := some (QUOTE, QUOTE) },
       { log_field := "status".toList, log_term_ref := STATUS_REF,
         log_term_type := TermType.unsigned_integer, log_delimiters := none },
       { log_field := "bytes".toList, log_term_ref := BYTES_REF,
         log_term_type := TermType.unsigned_integer, log_delimiters := none }] }

/-- The event of `checkCommonCodecWriteLogFormatAllFields`. -/
def allFieldsEvent : Event ParameterValue :=
  (((((((EventFactory.create HTTP_REQUEST_REF).set REMOTEHOST_REF
    (ParameterValue.string "192.168.10.10".toList)).set RFC931_REF
    (ParameterValue.string "greg".toList)).set AUTHUSER_REF
    (ParameterValue.string "bob".toList)).set DATE_REF
    (ParameterValue.datetime
      { year := 2008, month := 1, day := 10, hour := 12, minute := 31, second := 0 })).set
    REQUEST_REF (ParameterValue.string "GET / HTTP/1.1".toList)).set STATUS_REF
    (ParameterValue.uint 302)).set BYTES_REF (ParameterValue.uint 116)

/-- A `TCPConnectionPtr`: connection objects are identified by their address. -/
abbrev TCPConnectionPtr := Nat

/-- A handler waiting in the `io_service` queue: the stop task posted by `stop()`, or
the completion of an `async_accept` for a connection, with its error flag. -/
inductive Handler where
  | handleStopRequest : Handler
  | handleConnection (conn : TCPConnectionPtr) (accept_error : Bool) : Handler
deriving DecidableEq, Repr

/-- State of the `boost::asio` acceptor `m_tcp_acceptor` as far as `TCPServer` drives
it: whether it is open, the reuse-address option, the bound port, whether the socket
listens, and the connections whose `async_accept` is armed and has not completed. The
functions below are the calls that succeed; a call that fails throws and leaves the
acceptor as it was (`TCPServer.startOrThrow`). -/
structure Acceptor where
  is_open : Bool
  reuse_address : Bool
  local_port : Option Nat
  is_listening : Bool
  pending_accepts : List TCPConnectionPtr
deriving DecidableEq, Repr

/-- An acceptor as constructed from the `io_service`: closed, nothing armed. -/
def Acceptor.closed : Acceptor :=
  { is_open := false, reuse_address := false, local_port := none,
    is_listening := false, pending_accepts := [] }

/-- `m_tcp_acceptor.open(endpoint.protocol())`. -/
def Acceptor.open_ (a : Acceptor) : Acceptor :=
  { a with is_open := true }

/-- `m_tcp_acceptor.set_option(tcp::acceptor::reuse_address(true))`. -/
def Acceptor.set_reuse_address (a : Acceptor) (v : Bool) : Acceptor :=
  { a with reuse_address := v }

/-- Range of the port of a `tcp::endpoint`, an `unsigned short`. -/
def PORT_RANGE : Nat := 65536

/-- The port of `tcp::endpoint endpoint(tcp::v4(), m_tcp_port)` (TCPServer.cpp:47): the
constructor takes an `unsigned short`, so the `unsigned int` port of the server is
converted modulo 2^16 (70000 becomes 4464). -/
def endpointPort (tcp_port : Nat) : Nat :=
  tcp_port % PORT_RANGE

/-- `m_tcp_acceptor.bind(endpoint)`: the acceptor is bound to the port of the
endpoint. -/
def Acceptor.bind (a : Acceptor) (endpoint_port : Nat) : Acceptor :=
  { a with local_port := some endpoint_port }

/-- `m_tcp_acceptor.listen()`. -/
def Acceptor.listen (a : Acceptor) : Acceptor :=
  { a with is_listening := true }

/-- `m_tcp_acceptor.async_accept(new_connection->getSocket(), handler)`: arms one
accept on the connection. -/
def Acceptor.async_accept (a : Acceptor) (conn : TCPConnectionPtr) : Acceptor :=
  { a with pending_accepts := a.pending_accepts ++ [conn] }

/-- `m_tcp_acceptor.close()`: the socket is closed and no accept stays armed. -/
def Acceptor.close (_a : Acceptor) : Acceptor :=
  Acceptor.closed

/-- State of a `TCPServer`. The members `m_tcp_acceptor`, `m_tcp_port`,
`m_is_listening` and `m_conn_pool` (a `std::set` of connection pointers) are the ones of
the class; the other fields record the server's effects on its collaborators: the
handlers posted to the `io_service` and not yet run, the connections handed to
`m_protocol->handleConnection` (in call order), the connections on which
`TCPConnection::close` has been called, and the address the next
`new TCPConnection` returns. -/
structure TCPServer where
  m_tcp_acceptor : Acceptor
  m_tcp_port : Nat
  m_is_listening : Bool
  m_conn_pool : Finset TCPConnectionPtr
  io_service_queue : List Handler
  protocol_connections : List TCPConnectionPtr
  closed_connections : Finset TCPConnectionPtr
  heap_next : TCPConnectionPtr
deriving DecidableEq

/-- `TCPServer::TCPServer(io_service, port)`: not listening, empty pool. -/
def TCPServer.create (port : Nat) : TCPServer :=
  { m_tcp_acceptor := Acceptor.closed, m_tcp_port := port, m_is_listening := false,
    m_conn_pool := ∅, io_service_queue := [], protocol_connections := [],
    closed_connections := ∅, heap_next := 0 }

/-- `TCPServer::listen()` (TCPServer.cpp:75-93): when listening, allocate a connection,
insert it into the pool and arm an accept on it. -/
def TCPServer.listen (s : TCPServer) : TCPServer :=
  if s.m_is_listening then
    let new_connection := s.heap_next
    { s with
      heap_next := s.heap_next + 1
      m_conn_pool := insert new_connection s.m_conn_pool
      m_tcp_acceptor := s.m_tcp_acceptor.async_accept new_connection }
  else s

/-- `TCPServer::start()` (TCPServer.cpp:38-60) when none of the four acceptor calls
fails; `TCPServer.startOrThrow` has the runs in which one of them throws. -/
def TCPServer.start (s : TCPServer) : TCPServer :=
  if !s.m_is_listening then
    let acceptor := (((s.m_tcp_acceptor.open_).set_reuse_address true).bind
      (endpointPort s.m_tcp_port)).listen
    TCPServer.listen { s with m_tcp_acceptor := acceptor, m_is_listening := true }
  else s

/-- The acceptor calls of `start()`, each of which throws when the operating system
refuses it (a port in use or a privileged port for `bind`, no descriptor left for
`open`). -/
inductive AcceptorCall where
  | open_ : AcceptorCall
  | set_option : AcceptorCall
  | bind : AcceptorCall
  | listen : AcceptorCall
deriving DecidableEq, Repr

/-- How a call of `start()` ends: the acceptor call that threw, if one did, and the
server afterwards. -/
structure StartOutcome where
  thrown : Option AcceptorCall
  server : TCPServer

/-- `TCPServer::start()` (TCPServer.cpp:38-60), given the acceptor call that fails, if
any. The exception of a failing call leaves `start()` at once: the calls before it have
taken effect, `m_is_listening` has not been set and `listen()` has not been called. -/
def TCPServer.startOrThrow (s : TCPServer) (failing : Option AcceptorCall) : StartOutcome :=
  if !s.m_is_listening then
    if failing = some AcceptorCall.open_ then
      { thrown := some AcceptorCall.open_, server := s }
    else
      let a1 := s.m_tcp_acceptor.open_
      if failing = some AcceptorCall.set_option then
        { thrown := some AcceptorCall.set_option, server := { s with m_tcp_acceptor := a1 } }
      else
        let a2 := a1.set_reuse_address true
        if failing = some AcceptorCall.bind then
          { thrown := some AcceptorCall.bind, server := { s with m_tcp_acceptor := a2 } }
        else
          let a3 := a2.bind (endpointPort s.m_tcp_port)
          if failing = some AcceptorCall.listen then
            { thrown := some AcceptorCall.listen, server := { s with m_tcp_acceptor := a3 } }
          else
            { thrown := none,
              server := TCPServer.listen
                { s with m_tcp_acceptor := a3.listen, m_is_listening := true } }
  else { thrown := none, server := s }

/-- `TCPServer::stop()` (TCPServer.cpp:62-73): when listening, post the stop task. -/
def TCPServer.stop (s : TCPServer) : TCPServer :=
  if s.m_is_listening then
    { s with io_service_queue := s.io_service_queue ++ [Handler.handleStopRequest] }
  else s

/-- `TCPServer::handleStopRequest()` (TCPServer.cpp:95-115): when listening, clear the
flag, close the acceptor, call `close` on every pooled connection and clear the pool.
Closing the acceptor aborts the armed accepts: their handlers are queued with an
error. -/
def TCPServer.handleStopRequest (s : TCPServer) : TCPServer :=
  if s.m_is_listening then
    { s with
      m_is_listening := false
      m_tcp_acceptor := s.m_tcp_acceptor.close
      io_service_queue := s.io_service_queue ++
        s.m_tcp_acceptor.pending_accepts.map (fun c => Handler.handleConnection c true)
      closed_connections := s.closed_connections ∪ s.m_conn_pool
      m_conn_pool := ∅ }
  else s

/-- `TCPServer::finishConnection(conn)` (TCPServer.cpp:134-142): `m_conn_pool.erase`. -/
def TCPServer.finishConnection (s : TCPServer) (conn : TCPConnectionPtr) : TCPServer :=
  { s with m_conn_pool := s.m_conn_pool.erase conn }

/-- `TCPServer::handleConnection(conn, accept_error)` (TCPServer.cpp:117-132). -/
def TCPServer.handleConnection (s : TCPServer) (conn : TCPConnectionPtr)
    (accept_error : Bool) : TCPServer :=
  if accept_error then
    s.finishConnection conn
  else
    let s1 := if s.m_is_listening then s.listen else s
    { s1 with protocol_connections := s1.protocol_connections ++ [conn] }

/-- The `io_service` completes the accept armed on `conn`: the accept is no longer
pending and its handler `handleConnection(conn, accept_error)` runs. Nothing happens
when no accept is armed on `conn`. -/
def TCPServer.acceptCompleted (s : TCPServer) (conn : TCPConnectionPtr)
    (accept_error : Bool) : TCPServer :=
  if conn ∈ s.m_tcp_acceptor.pending_accepts then
    TCPServer.handleConnection
      { s with m_tcp_acceptor :=
          { s.m_tcp_acceptor with
            pending_accepts := s.m_tcp_acceptor.pending_accepts.erase conn } }
      conn accept_error
  else s

/-- What can happen to a server in the scenario of sustained accept load: `start()` is
called, an armed accept completes (with or without error), or a connection calls its
finish handler `finishConnection`. -/
inductive ServerEvent where
  | start : ServerEvent
  | acceptCompleted (conn : TCPConnectionPtr) (accept_error : Bool) : ServerEvent
  | finishConnection (conn : TCPConnectionPtr) : ServerEvent
deriving DecidableEq, Repr

/-- A server together with the set of clients currently connected: the connections
whose accept completed without error and that have not been finished since. -/
structure LoadState where
  server : TCPServer
  clients : Finset TCPConnectionPtr

/-- One step of the load scenario. -/
def LoadState.step (st : LoadState) : ServerEvent → LoadState
  | ServerEvent.start => { st with server := st.server.start }
  | ServerEvent.acceptCompleted conn accept_error =>
      if conn ∈ st.server.m_tcp_acceptor.pending_accepts then
        { server := st.server.acceptCompleted conn accept_error
          clients := if accept_error then st.clients else insert conn st.clients }
      else st
  | ServerEvent.finishConnection conn =>
      { server := st.server.finishConnection conn
        clients := st.clients.erase conn }

/-- The state reached from a newly constructed server on `port` by a sequence of
events. -/
def LoadState.run (port : Nat) (events : List ServerEvent) : LoadState :=
  events.foldl LoadState.step { server := TCPServer.create port, clients := ∅ }

/-- The invariant of the load scenario: an accept is armed only while the server
listens, at most one accept is armed, and every pooled connection is a connected
client's or the one awaiting the armed accept. -/
def LoadState.Inv (st : LoadState) : Prop :=
  (st.server.m_is_listening = false → st.server.m_tcp_acceptor.pending_accepts = []) ∧
  st.server.m_tcp_acceptor.pending_accepts.length ≤ 1 ∧
  st.server.m_conn_pool ⊆ st.clients ∪ st.server.m_tcp_acceptor.pending_accepts.toFinset

/-! ## Reaction engine (`platform/include/pion/platform/ReactionEngine.hpp`) -/

/-- An `EventPtr`: the engine routes events without looking into them. -/
abbrev EventPtr := Event ParameterValue

/-- Modelled from the spec: the reactor that `PluginManager::get` finds
(PluginManager.hpp is not among the sources). A registered reactor object is identified
by the id it is registered under; `none` of `Option ReactorPtr` is the answer of a lookup
that finds no reactor, the spec's `NotFound`. -/
abbrev ReactorPtr := String

/-- The number of values of a `boost::uint64_t`, the type of the statistics. -/
def UINT64_RANGE : Nat := 18446744073709551616

/-- Modelled from the spec: the statistics a reactor holds, "events-in, events-out"
(Reactor.hpp is not among the sources). -/
structure Reactor where
  m_events_in : Nat
  m_events_out : Nat
deriving DecidableEq, Repr

/-- Modelled from the spec: `Reactor::getEventsIn()`, a `boost::uint64_t` (Reactor.hpp is
not among the sources). -/
def Reactor.getEventsIn (r : Reactor) : Nat :=
  r.m_events_in % UINT64_RANGE

/-- Modelled from the spec: lookup in the plugin registry, a "map from plugin id
(string) to an owning handle" (PluginManager.hpp is not among the sources): the reactor
registered under the id, if any. -/
def PluginManager.find : List (String × Reactor) → String → Option Reactor
  | [], _ => none
  | (id, r) :: rest, plugin_id => if id = plugin_id then some r else PluginManager.find rest plugin_id

/-- Modelled from the spec: the registry's `get` (PluginManager.hpp is not among the
sources): the reactor registered under the id; for an id that is not registered, or no
longer registered, there is none (the spec's `NotFound`, the "missing reactor id"). -/
def PluginManager.get (plugins : List (String × Reactor)) (plugin_id : String) :
    Option ReactorPtr :=
  match PluginManager.find plugins plugin_id with
  | some _ => some plugin_id
  | none => none

/-- Modelled from the spec: the registry's `aggregate(fn)`, "which applies `fn` to each
plugin and sums unsigned results" (`PluginManager::getStatistic(stat_func)`;
PluginManager.hpp is not among the sources). The sum is accumulated in a
`boost::uint64_t`, the type `getTotalOperations` returns. -/
def PluginManager.getStatistic (plugins : List (String × Reactor))
    (stat_func : Reactor → Nat) : Nat :=
  plugins.foldl (fun total p => (total + stat_func p.2) % UINT64_RANGE) 0

/-- Modelled from the spec: the statistic of one plugin
(`PluginManager::getStatistic(plugin_id, stat_func)`; PluginManager.hpp is not among the
sources); there is no value for an id that is not registered. -/
def PluginManager.getStatisticFor (plugins : List (String × Reactor)) (plugin_id : String)
    (stat_func : Reactor → Nat) : Option Nat :=
  (PluginManager.find plugins plugin_id).map stat_func

/-- A handler posted to the scheduler's `io_service` by the engine:
`boost::bind(&Reactor::send, m_plugins.get(reactor_id), e)`, the call of
`Reactor::send(e)` on what the lookup returned. -/
inductive EngineHandler where
  | reactorSend (reactor_ptr : Option ReactorPtr) (e : EventPtr) : EngineHandler
deriving DecidableEq, Repr

/-- State of a `ReactionEngine`: the registry `m_plugins` it inherits from
`PluginConfig<Reactor>`, the flag `m_is_running`, the handlers posted to
`m_scheduler.getIOService()` and not yet run, and the calls of `Reactor::send` made by
the handlers that have run. -/
structure ReactionEngine where
  m_plugins : List (String × Reactor)
  m_is_running : Bool
  io_service_queue : List EngineHandler
  reactor_send_calls : List (ReactorPtr × EventPtr)
deriving DecidableEq, Repr

/-- `ReactionEngine::send(reactor_id, e)` (ReactionEngine.hpp:101-104): posts
`Reactor::send` bound to the result of `m_plugins.get(reactor_id)` and to `e`. -/
def ReactionEngine.send (eng : ReactionEngine) (reactor_id : String) (e : EventPtr) :
    ReactionEngine :=
  { eng with io_service_queue := eng.io_service_queue ++
      [EngineHandler.reactorSend (PluginManager.get eng.m_plugins reactor_id) e] }

/-- `ReactionEngine::getTotalOperations()` (ReactionEngine.hpp:111-113). -/
def ReactionEngine.getTotalOperations (eng : ReactionEngine) : Nat :=
  PluginManager.getStatistic eng.m_plugins Reactor.getEventsIn

/-- `ReactionEngine::getEventsIn(reactor_id)` (ReactionEngine.hpp:121-123). -/
def ReactionEngine.getEventsIn (eng : ReactionEngine) (reactor_id : String) : Option Nat :=
  PluginManager.getStatisticFor eng.m_plugins reactor_id Reactor.getEventsIn

/-- Modelled from the spec: what would stop the scheduler in the middle of a handler, an
exception that leaves the handler. The spec lets none through (runtime errors "never
propagate into the scheduler loop"), and no handler of this model ends that way. -/
inductive EngineFault where
  | uncaughtException : EngineFault
deriving DecidableEq, Repr

/-- Modelled from the spec: the scheduler runs a posted handler (Reactor.hpp and
PluginManager.hpp are not among the sources). For a reactor that was found,
`Reactor::send(e)` is called on it, and the call is recorded. For a lookup that found no
reactor nothing is called: "`NotFound` on `send` is a silent drop", "if the reactor has
been removed between post and execution, the task is a no-op". -/
def ReactionEngine.runHandler (eng : ReactionEngine) :
    EngineHandler → Except EngineFault ReactionEngine
  | EngineHandler.reactorSend none _ => Except.ok eng
  | EngineHandler.reactorSend (some reactor_ptr) e =>
      Except.ok { eng with reactor_send_calls := eng.reactor_send_calls ++ [(reactor_ptr, e)] }

/-- The scheduler takes the oldest posted handler off the queue and runs it. -/
def ReactionEngine.poll (eng : ReactionEngine) : Except EngineFault ReactionEngine :=
  match eng.io_service_queue with
  | [] => Except.ok eng
  | handler :: rest => ReactionEngine.runHandler { eng with io_service_queue := rest } handler

/-- An engine that is not running, with two registered reactors. -/
def stoppedEngine : ReactionEngine :=
  { m_plugins := [("reactor-a", { m_events_in := 3, m_events_out := 2 }),
                  ("reactor-b", { m_events_in := 5, m_events_out := 0 })]
    m_is_running := false
    io_service_queue := []
    reactor_send_calls := [] }

/-- An engine whose two reactors have each received 2^63 events. -/
def saturatedEngine : ReactionEngine :=
  { m_plugins := [("reactor-a", { m_events_in := 9223372036854775808, m_events_out := 0 }),
                  ("reactor-b", { m_events_in := 9223372036854775808, m_events_out := 0 })]
    m_is_running := true
    io_service_queue := []
    reactor_send_calls := [] }

/-! ## Python reactor (`platform/reactors/PythonReactor.cpp`) -/

/-- A `PyObject*` that is not null: Python objects are identified by their address. -/
abbrev PyObject := Nat

/-- The exceptions `PythonReactor` throws (their classes are declared in
PythonReactor.hpp, which is not among the sources; each carries the text it is
constructed with). -/
inductive PythonException where
  | InternalPythonException (reactor_id : String) : PythonException
  | PythonRuntimeException (error_str : String) : PythonException
  | FailedToCompileException (error_str : String) : PythonException
  | NotCallableException (func_name : String) : PythonException
  | SourceFileNotFoundException (source_file : String) : PythonException
  | ReadSourceFileException (source_file : String) : PythonException
deriving DecidableEq, Repr

/-- What a `PythonReactor` does to its collaborators, in the order it does it: a call of
a Python function through `PyObject_CallObject(func, args)`, and a call of the base
class's `deliverEvent(e)`. -/
inductive ReactorAction where
  | callPython (func : PyObject) (args : Option PyObject) : ReactorAction
  | deliverEvent (e : EventPtr) : ReactorAction
deriving DecidableEq, Repr

/-- State of a `PythonReactor`: its id, the source code and the name of the source file,
the compiled byte code, the imported module and its three functions (null when `none`),
the running flag of the `Reactor` base class, and the actions performed so far. -/
structure PythonReactor where
  m_id : String
  m_source : String
  m_source_file : String
  m_byte_code : Option PyObject
  m_module : Option PyObject
  m_start_func : Option PyObject
  m_stop_func : Option PyObject
  m_process_func : Option PyObject
  m_is_running : Bool
  actions : List ReactorAction
deriving DecidableEq, Repr

/-- What `PyObject_CallObject` leaves behind: the object returned (null when `none`) and
the interpreter's error indicator, which `PyErr_Occurred()` tests and from which
`getPythonError()` takes the text. -/
structure PyCallResult where
  retval : Option PyObject
  error : Option String
deriving DecidableEq, Repr

/-- What the interpreter does during one `process` call: the results of `PyDict_New()`,
of `PyTuple_New(1)` and of calling the module's `process` function. -/
structure ProcessPython where
  python_dict : Option PyObject
  python_args : Option PyObject
  call : PyCallResult
deriving DecidableEq, Repr

/-- How a member function of the reactor ends: the exception it threw, if any, and the
state it left the reactor in. -/
structure ReactorOutcome where
  thrown : Option PythonException
  reactor : PythonReactor
deriving DecidableEq, Repr

/-- `PythonReactor::getPythonError()` (PythonReactor.cpp:401-422): the text of the
pending error, empty when there is none. -/
def getPythonError (call : PyCallResult) : String :=
  call.error.getD ""

/-- `Reactor::deliverEvent(e)` as `process` uses it: the call is recorded (Reactor.hpp is
not among the sources). -/
def PythonReactor.deliverEvent (r : PythonReactor) (e : EventPtr) : PythonReactor :=
  { r with actions := r.actions ++ [ReactorAction.deliverEvent e] }

/-- `PythonReactor::process(e)` (PythonReactor.cpp:249-288). -/
def PythonReactor.process (r : PythonReactor) (e : EventPtr) (py : ProcessPython) :
    ReactorOutcome :=
  match r.m_process_func with
  | some process_func =>
      match py.python_dict with
      | none =>
          { thrown := some (PythonException.InternalPythonException r.m_id), reactor := r }
      | some _ =>
          match py.python_args with
          | none =>
              { thrown := some (PythonException.InternalPythonException r.m_id), reactor := r }
          | some python_args =>
              let called : PythonReactor :=
                { r with actions :=
                    r.actions ++ [ReactorAction.callPython process_func (some python_args)] }
              if py.call.retval = none ∧ py.call.error ≠ none then
                { thrown := some (PythonException.PythonRuntimeException
                    (getPythonError py.call)),
                  reactor := called }
              else
                { thrown := none, reactor := called.deliverEvent e }
  | none => { thrown := none, reactor := r.deliverEvent e }

/-- A running reactor whose module defines a `process` function. -/
def runningPythonReactor : PythonReactor :=
  { m_id := "python-1", m_source := "def process(e): pass", m_source_file := "",
    m_byte_code := some 10, m_module := some 11, m_start_func := none,
    m_stop_func := none, m_process_func := some 12, m_is_running := true, actions := [] }

/-- A `process` call in which the Python function raises. -/
def raisingProcess : ProcessPython :=
  { python_dict := some 20, python_args := some 21,
    call := { retval := none, error := some "division by zero" } }

/-- A `process` call in which the Python function returns normally. -/
def returningProcess : ProcessPython :=
  { python_dict := some 20, python_args := some 21,
    call := { retval := some 22, error := none } }

/-! ## Log codec: record format, extended log format, vocabulary updates -/

/-- Modelled from the spec: reference of `urn:vocab:clickstream#referer`. -/
def REFERER_REF : TermRef := 8

/-- Modelled from the spec: the combined log format codec of the tests (the codec
configuration file is not among the sources): the fields of the common log format
followed by referer and useragent, both in double quotes, as in the tests' expected
output `- - - [] "" - - "http://www.atomiclabs.com/" "Mozilla/4.08 [en] (Win98; I ;Nav)"`. -/
def combinedLogCodec : LogCodec :=
  { m_event_type := HTTP_REQUEST_REF
    m_field_map := commonLogCodec.m_field_map ++
      [{ log_field := "referer".toList, log_term_ref := REFERER_REF,
         log_term_type := TermType.string, log_delimiters := some (QUOTE, QUOTE) },
       { log_field := "useragent".toList, log_term_ref := USERAGENT_REF,
         log_term_type := TermType.string, log_delimiters := some (QUOTE, QUOTE) }] }

/-- The event of `checkCommonCodecWriteLogFormatJustOneField`: only remotehost is set. -/
def remotehostEvent : Event ParameterValue :=
  (EventFactory.create HTTP_REQUEST_REF).set REMOTEHOST_REF
    (ParameterValue.string "192.168.0.1".toList)

/-- The event of `checkCombinedCodecWriteJustExtraFields`: only referer and useragent
are set. -/
def extraFieldsEvent : Event ParameterValue :=
  ((EventFactory.create HTTP_REQUEST_REF).set REFERER_REF
    (ParameterValue.string "http://www.atomiclabs.com/".toList)).set USERAGENT_REF
    (ParameterValue.string "Mozilla/4.08 [en] (Win98; I ;Nav)".toList)

/-- Modelled from the spec: the header of the extended log format (LogCodec.cpp is not
among the sources): `#Version: 1.0`, a line terminator, `#Fields: ` followed by the
field names in declared order separated by single spaces, a line terminator. -/
def elfHeader (c : LogCodec) : List Char :=
  "#Version: 1.0".toList ++ NEWLINE :: ("#Fields: ".toList ++
    (List.intercalate [SPACE] (c.m_field_map.map LogField.log_field) ++ [NEWLINE]))

/-- Modelled from the spec: an Extended log codec (LogCodec.hpp is not among the
sources): a Log codec together with the flag that says the header has still to be
written. -/
structure ExtendedLogCodec where
  codec : LogCodec
  m_needs_to_write_headers : Bool
deriving DecidableEq, Repr

/-- Modelled from the spec: an Extended log codec with which nothing has been written
yet. -/
def ExtendedLogCodec.create (codec : LogCodec) : ExtendedLogCodec :=
  { codec := codec, m_needs_to_write_headers := true }

/-- Modelled from the spec: `write(stream, event)` of the Extended log codec
(LogCodec.cpp is not among the sources), returning the bytes appended to the stream and
the codec afterwards: "On first write, emit a header"; "each record is a single line
with the field values in declared order". -/
def ExtendedLogCodec.write (c : ExtendedLogCodec) (e : Event ParameterValue) :
    List Char × ExtendedLogCodec :=
  ((if c.m_needs_to_write_headers then elfHeader c.codec else []) ++ c.codec.write e,
   { c with m_needs_to_write_headers := false })

/-- The `io_service` runs a handler that was posted to it. -/
def TCPServer.runHandler (s : TCPServer) : Handler → TCPServer
  | Handler.handleStopRequest => s.handleStopRequest
  | Handler.handleConnection conn accept_error => s.handleConnection conn accept_error

/-- The `io_service` takes the oldest posted handler off its queue and runs it; with an
empty queue nothing happens. -/
def TCPServer.poll (s : TCPServer) : TCPServer :=
  match s.io_service_queue with
  | [] => s
  | handler :: rest => TCPServer.runHandler { s with io_service_queue := rest } handler

/-- The pooled connections that are awaiting an armed accept. -/
def TCPServer.awaitingAccept (s : TCPServer) : Finset TCPConnectionPtr :=
  s.m_conn_pool.filter (fun c => c ∈ s.m_tcp_acceptor.pending_accepts)

/-- What can happen to a server over its life: `start()` or `stop()` is called, the
`io_service` runs the oldest posted handler (the stop task, or the handler of an accept
that was aborted when the acceptor was closed), an armed accept completes (with or
without error), or a connection calls `finishConnection`. -/
inductive ServerStep where
  | start : ServerStep
  | stop : ServerStep
  | poll : ServerStep
  | acceptCompleted (conn : TCPConnectionPtr) (accept_error : Bool) : ServerStep
  | finishConnection (conn : TCPConnectionPtr) : ServerStep
deriving DecidableEq, Repr

/-- One step of a server's life. -/
def TCPServer.step (s : TCPServer) : ServerStep → TCPServer
  | ServerStep.start => s.start
  | ServerStep.stop => s.stop
  | ServerStep.poll => s.poll
  | ServerStep.acceptCompleted conn accept_error => s.acceptCompleted conn accept_error
  | ServerStep.finishConnection conn => s.finishConnection conn

/-- The state a newly constructed server on `port` reaches by a sequence of steps. -/
def TCPServer.run (port : Nat) (steps : List ServerStep) : TCPServer :=
  steps.foldl TCPServer.step (TCPServer.create port)

/-- A call of one of the member functions other than `start()`. -/
inductive ServerCall where
  | listen : ServerCall
  | handleConnection (conn : TCPConnectionPtr) (accept_error : Bool) : ServerCall
  | finishConnection (conn : TCPConnectionPtr) : ServerCall
  | stop : ServerCall
  | handleStopRequest : ServerCall
deriving DecidableEq, Repr

/-- The server after a call of a member function other than `start()`. -/
def TCPServer.call (s : TCPServer) : ServerCall → TCPServer
  | ServerCall.listen => s.listen
  | ServerCall.handleConnection conn accept_error => s.handleConnection conn accept_error
  | ServerCall.finishConnection conn => s.finishConnection conn
  | ServerCall.stop => s.stop
  | ServerCall.handleStopRequest => s.handleStopRequest

/-- A step that is not one of the two ways to lose the armed accept: it is not an accept
completing with an error, and `finishConnection` is called only by a connection that was
handed to the protocol. -/
def TCPServer.orderlyStep (s : TCPServer) : ServerStep → Bool
  | ServerStep.acceptCompleted _ accept_error => !accept_error
  | ServerStep.finishConnection conn => decide (conn ∈ s.protocol_connections)
  | _ => true

/-- Every step of the sequence is orderly in the state it is taken in. -/
def TCPServer.orderly (s : TCPServer) : List ServerStep → Bool
  | [] => true
  | step :: rest => s.orderlyStep step && (s.step step).orderly rest

/-- The invariant kept by orderly steps: no accept is armed on a server that is not
listening; a listening server has exactly one armed accept, on a pooled connection;
armed, queued and handed-over connections were allocated before `heap_next`; and the
queued completion handlers carry an error and, like the handed-over connections, are not
for the connection awaiting the armed accept. -/
def TCPServer.ArmedInv (s : TCPServer) : Prop :=
  (s.m_is_listening = false → s.m_tcp_acceptor.pending_accepts = []) ∧
  (s.m_is_listening = true →
    ∃ c, s.m_tcp_acceptor.pending_accepts = [c] ∧ c ∈ s.m_conn_pool) ∧
  (∀ c ∈ s.m_tcp_acceptor.pending_accepts, c < s.heap_next) ∧
  (∀ c e, Handler.handleConnection c e ∈ s.io_service_queue →
    e = true ∧ c < s.heap_next ∧ c ∉ s.m_tcp_acceptor.pending_accepts) ∧
  (∀ c ∈ s.protocol_connections, c < s.heap_next ∧ c ∉ s.m_tcp_acceptor.pending_accepts)

/-! ## Hello service (`services/HelloService.cpp`) -/

/-- Modelled from the spec: `http::types::STRING_CRLF` (the HTTP types header is not
among the sources): the "CRLF line terminators" of the HTTP wire, carriage return and
line feed. -/
def STRING_CRLF : List Char := [Char.ofNat 13, Char.ofNat 10]

/-- The `HELLO_HTML` constant of `HelloService::operator()` (HelloService.cpp:24). -/
def HELLO_HTML : List Char := "<html><body>Hello World!</body></html>".toList

/-- An HTTP request as the service receives it; the service reads nothing of it. -/
structure HTTPRequest where
  method : String
  resource : String
deriving DecidableEq, Repr

/-- The handler a response writer runs when its send completes. `HelloService` binds
`tcp::connection::finish` to the connection. -/
inductive FinishedHandler where
  | connectionFinish (tcp_conn : TCPConnectionPtr) : FinishedHandler
deriving DecidableEq, Repr

/-- Modelled from the spec: an `http::response_writer` (its header is not among the
sources) as far as the service drives it: the connection and the request it was created
for, the handler to run when the send completes, the buffers written to the payload of
the response, in order, and the number of `send()` calls. -/
structure HTTPResponseWriter where
  tcp_conn : TCPConnectionPtr
  http_request : HTTPRequest
  finished_handler : FinishedHandler
  content : List (List Char)
  send_calls : Nat
deriving DecidableEq, Repr

/-- Modelled from the spec: `http::response_writer::create(tcp_conn, request, handler)`:
a writer with an empty payload that has not been sent. -/
def HTTPResponseWriter.create (tcp_conn : TCPConnectionPtr) (http_request : HTTPRequest)
    (finished_handler : FinishedHandler) : HTTPResponseWriter :=
  { tcp_conn := tcp_conn, http_request := http_request, finished_handler := finished_handler,
    content := [], send_calls := 0 }

/-- Modelled from the spec: `writer->writeNoCopy(data)`: appends the buffer to the
payload. -/
def HTTPResponseWriter.writeNoCopy (w : HTTPResponseWriter) (data : List Char) :
    HTTPResponseWriter :=
  { w with content := w.content ++ [data] }

/-- Modelled from the spec: `writer->send()`: sends the response. -/
def HTTPResponseWriter.send (w : HTTPResponseWriter) : HTTPResponseWriter :=
  { w with send_calls := w.send_calls + 1 }

/-- The body of the response: the payload buffers one after the other. -/
def HTTPResponseWriter.body (w : HTTPResponseWriter) : List Char :=
  w.content.flatten

/-- `HelloService::operator()(http_request_ptr, tcp_conn)` (HelloService.cpp:22-31),
returning the writer it created, as it is after `send()`. -/
def HelloService.handle (http_request : HTTPRequest) (tcp_conn : TCPConnectionPtr) :
    HTTPResponseWriter :=
  let writer := HTTPResponseWriter.create tcp_conn http_request
    (FinishedHandler.connectionFinish tcp_conn)
  let writer := writer.writeNoCopy HELLO_HTML
  let writer := writer.writeNoCopy STRING_CRLF
  let writer := writer.writeNoCopy STRING_CRLF
  writer.send

/-! ## Python reactor: configuring, starting, stopping, construction and destruction -/

/-- What `getSourceCodeFromFile` finds under a file name: no such file, a file that
cannot be opened or read, or the file's content. -/
inductive SourceFile where
  | missing : SourceFile
  | unreadable : SourceFile
  | content (src_code : String) : SourceFile
deriving DecidableEq, Repr

/-- The reactor's surroundings while it is configured, started or stopped: the files on
disk (by resolved name) and the Python interpreter, namely the results of
`Py_CompileString(source, filename)`, of `PyImport_ExecCodeModule("pion", byte_code)`,
of `PyObject_GetAttrString(module, name)`, of `PyCallable_Check(func)` and of
`PyObject_CallObject(func, args)`. -/
structure PythonWorld where
  read_file : String → SourceFile
  compile : String → String → PyCallResult
  exec_module : PyObject → PyCallResult
  get_attr : PyObject → String → Option PyObject
  callable : PyObject → Bool
  call : PyObject → Option PyObject → PyCallResult

/-- `PythonReactor::PYTHON_MODULE_NAME` and the three function names
(PythonReactor.cpp:72-75). -/
def PYTHON_MODULE_NAME : String := "pion"

def START_FUNCTION_NAME : String := "start"

def STOP_FUNCTION_NAME : String := "stop"

def PROCESS_FUNCTION_NAME : String := "process"

/-- `PythonReactor::getSourceCodeFromFile()` (PythonReactor.cpp:377-399). -/
def PythonReactor.getSourceCodeFromFile (r : PythonReactor) (world : PythonWorld) :
    Except PythonException String :=
  match world.read_file r.m_source_file with
  | SourceFile.missing =>
      Except.error (PythonException.SourceFileNotFoundException r.m_source_file)
  | SourceFile.unreadable =>
      Except.error (PythonException.ReadSourceFileException r.m_source_file)
  | SourceFile.content src_code => Except.ok src_code

/-- `PythonReactor::resetPythonSymbols()` (PythonReactor.cpp:323-333). -/
def PythonReactor.resetPythonSymbols (r : PythonReactor) : PythonReactor :=
  { r with m_start_func := none, m_stop_func := none, m_process_func := none,
           m_module := none, m_byte_code := none }

/-- `PythonReactor::compilePythonSource()` (PythonReactor.cpp:335-349): compiles
`m_source`. -/
def PythonReactor.compilePythonSource (r : PythonReactor) (world : PythonWorld) :
    ReactorOutcome :=
  let r := r.resetPythonSymbols
  if r.m_source ≠ "" then
    let compiled := world.compile r.m_source r.m_source_file
    match compiled.retval with
    | none =>
        { thrown := some (PythonException.FailedToCompileException (getPythonError compiled)),
          reactor := r }
    | some byte_code => { thrown := none, reactor := { r with m_byte_code := some byte_code } }
  else { thrown := none, reactor := r }

/-- `PythonReactor::findPythonFunction(module_ptr, func_name)` (PythonReactor.cpp:309-321):
the attribute, null when the module has none of that name. -/
def findPythonFunction (world : PythonWorld) (module_ptr : PyObject) (func_name : String) :
    Except PythonException (Option PyObject) :=
  match world.get_attr module_ptr func_name with
  | some func_ptr =>
      if !world.callable func_ptr then
        Except.error (PythonException.NotCallableException func_name)
      else Except.ok (some func_ptr)
  | none => Except.ok none

/-- `PythonReactor::initPythonModule()` (PythonReactor.cpp:351-375). -/
def PythonReactor.initPythonModule (r : PythonReactor) (world : PythonWorld) :
    ReactorOutcome :=
  match r.m_byte_code with
  | some byte_code =>
      let executed := world.exec_module byte_code
      match executed.retval with
      | none =>
          { thrown := some (PythonException.FailedToCompileException (getPythonError executed)),
            reactor := { r with m_module := none, m_byte_code := none } }
      | some module_ptr =>
          let r := { r with m_module := some module_ptr }
          match findPythonFunction world module_ptr START_FUNCTION_NAME with
          | Except.error ex => { thrown := some ex, reactor := r }
          | Except.ok start_func =>
              let r := { r with m_start_func := start_func }
              match findPythonFunction world module_ptr STOP_FUNCTION_NAME with
              | Except.error ex => { thrown := some ex, reactor := r }
              | Except.ok stop_func =>
                  let r := { r with m_stop_func := stop_func }
                  match findPythonFunction world module_ptr PROCESS_FUNCTION_NAME with
                  | Except.error ex => { thrown := some ex, reactor := r }
                  | Except.ok process_func =>
                      { thrown := none, reactor := { r with m_process_func := process_func } }
  | none => { thrown := none, reactor := r }

/-- `PythonReactor::setConfig(v, config_ptr)` (PythonReactor.cpp:150-176). The two
optional elements of the configuration, `PythonSource` and `Filename`, are given as
`ConfigManager::getConfigOption` finds them (`none` when the element is absent). -/
def PythonReactor.setConfig (r : PythonReactor) (python_source filename : Option String)
    (world : PythonWorld) : ReactorOutcome :=
  let r := { r with m_source := python_source.getD "" }
  let r := { r with m_source_file := filename.getD "" }
  let loaded : ReactorOutcome :=
    match filename with
    | some _ =>
        match r.getSourceCodeFromFile world with
        | Except.error ex => { thrown := some ex, reactor := r }
        | Except.ok src_code => { thrown := none, reactor := { r with m_source := src_code } }
    | none => { thrown := none, reactor := r }
  match loaded.thrown with
  | some _ => loaded
  | none =>
      let compiled := loaded.reactor.compilePythonSource world
      match compiled.thrown with
      | some _ => compiled
      | none =>
          if compiled.reactor.m_is_running then compiled.reactor.initPythonModule world
          else compiled

/-- The check `retval == NULL && PyErr_Occurred()` that `start()` and `stop()` make after
calling a Python function: the function raised. -/
def PyCallResult.raised (result : PyCallResult) : Bool :=
  result.retval.isNone && result.error.isSome

/-- The block of `PythonReactor::start()` that looks at the source file
(PythonReactor.cpp:187-194): when a source file is configured, its content is read into
the local `src_code` and, when that differs from `m_source`, `compilePythonSource()` is
called. -/
def PythonReactor.reloadSource (r : PythonReactor) (world : PythonWorld) : ReactorOutcome :=
  if r.m_source_file ≠ "" then
    match r.getSourceCodeFromFile world with
    | Except.error ex => { thrown := some ex, reactor := r }
    | Except.ok src_code =>
        if src_code ≠ r.m_source then r.compilePythonSource world
        else { thrown := none, reactor := r }
  else { thrown := none, reactor := r }

/-- `PythonReactor::start()` (PythonReactor.cpp:178-213). -/
def PythonReactor.start (r : PythonReactor) (world : PythonWorld) : ReactorOutcome :=
  if !r.m_is_running then
    let reloaded := r.reloadSource world
    match reloaded.thrown with
    | some _ => reloaded
    | none =>
        let initialised := reloaded.reactor.initPythonModule world
        match initialised.thrown with
        | some _ => initialised
        | none =>
            let r := { initialised.reactor with m_is_running := true }
            match r.m_start_func with
            | some start_func =>
                let result := world.call start_func none
                let called : PythonReactor :=
                  { r with actions := r.actions ++ [ReactorAction.callPython start_func none] }
                if result.raised then
                  { thrown := some (PythonException.PythonRuntimeException
                      (getPythonError result)),
                    reactor := called }
                else { thrown := none, reactor := called }
            | none => { thrown := none, reactor := r }
  else { thrown := none, reactor := r }

/-- The end of `PythonReactor::stop()` (PythonReactor.cpp:237-245): the three functions
and the module are released and nulled, the byte code is left alone, the running flag is
cleared. -/
def PythonReactor.releaseModule (r : PythonReactor) : PythonReactor :=
  { r with m_start_func := none, m_stop_func := none, m_process_func := none,
           m_module := none, m_is_running := false }

/-- `PythonReactor::stop()` (PythonReactor.cpp:215-247). -/
def PythonReactor.stop (r : PythonReactor) (world : PythonWorld) : ReactorOutcome :=
  if r.m_is_running then
    match r.m_stop_func with
    | some stop_func =>
        let result := world.call stop_func none
        let called : PythonReactor :=
          { r with actions := r.actions ++ [ReactorAction.callPython stop_func none] }
        if result.raised then
          { thrown := some (PythonException.PythonRuntimeException (getPythonError result)),
            reactor := called }
        else { thrown := none, reactor := called.releaseModule }
    | none => { thrown := none, reactor := r.releaseModule }
  else { thrown := none, reactor := r }

/-- Range of `boost::uint32_t`, the type of `PythonReactor::m_init_num`. -/
def UINT32_RANGE : Nat := 4294967296

/-- The static members of `PythonReactor` (PythonReactor.cpp:78-81): the instance
counter `m_init_num`, the interpreter pointer `m_interp_ptr` and the thread-state
pointer `m_state_ptr` (null when `none`), with the numbers of `Py_Initialize()` and
`Py_Finalize()` calls made so far. -/
structure PythonStatics where
  m_init_num : Nat
  m_interp_ptr : Option Nat
  m_state_ptr : Option Nat
  py_initialize_calls : Nat
  py_finalize_calls : Nat
deriving DecidableEq, Repr

/-- The static members as the program starts: counter 0, both pointers null. -/
def PythonStatics.initial : PythonStatics :=
  { m_init_num := 0, m_interp_ptr := none, m_state_ptr := none,
    py_initialize_calls := 0, py_finalize_calls := 0 }

/-- The Python interpreter is initialised: `Py_Initialize()` has been called once more
than `Py_Finalize()`. -/
def PythonStatics.interpreterInitialised (statics : PythonStatics) : Bool :=
  statics.py_initialize_calls == statics.py_finalize_calls + 1

/-- Address of the `boost::thread_specific_ptr` the constructor allocates. -/
def STATE_PTR_ADDRESS : Nat := 1

/-- Address of the interpreter state `PyThreadState_Get()->interp`, which the
constructor asserts to be non-null. -/
def INTERPRETER_ADDRESS : Nat := 2

/-- `PythonReactor::PythonReactor()` (PythonReactor.cpp:86-112): the new object, with
null byte code, module and functions, and the static members after the constructor.
The `Reactor` base class leaves the object not running, with no configuration. -/
def PythonReactor.construct (statics : PythonStatics) : PythonReactor × PythonStatics :=
  let r : PythonReactor :=
    { m_id := "", m_source := "", m_source_file := "", m_byte_code := none, m_module := none,
      m_start_func := none, m_stop_func := none, m_process_func := none,
      m_is_running := false, actions := [] }
  let init_num := (statics.m_init_num + 1) % UINT32_RANGE
  if init_num = 1 then
    (r, { m_init_num := init_num,
          m_state_ptr := some STATE_PTR_ADDRESS,
          m_interp_ptr := some INTERPRETER_ADDRESS,
          py_initialize_calls := statics.py_initialize_calls + 1,
          py_finalize_calls := statics.py_finalize_calls })
  else (r, { statics with m_init_num := init_num })

/-- How a destructor call ends: the exception that left it, if any, and the static
members afterwards. -/
structure DestructorOutcome where
  thrown : Option PythonException
  statics : PythonStatics
deriving DecidableEq, Repr

/-- `PythonReactor::~PythonReactor()` (PythonReactor.cpp:114-148): `stop()` is called
first, outside the `try` block, so an exception it throws leaves the destructor at
once; otherwise the symbols are reset and the counter is decremented, and on reaching 0
the pointers are nulled and `Py_Finalize()` is called. -/
def PythonReactor.destruct (r : PythonReactor) (statics : PythonStatics)
    (world : PythonWorld) : DestructorOutcome :=
  let stopped := r.stop world
  match stopped.thrown with
  | some ex => { thrown := some ex, statics := statics }
  | none =>
      let _r := stopped.reactor.resetPythonSymbols
      let init_num := (statics.m_init_num + UINT32_RANGE - 1) % UINT32_RANGE
      if init_num = 0 then
        { thrown := none,
          statics := { m_init_num := init_num, m_state_ptr := none, m_interp_ptr := none,
                       py_initialize_calls := statics.py_initialize_calls,
                       py_finalize_calls := statics.py_finalize_calls + 1 } }
      else { thrown := none, statics := { statics with m_init_num := init_num } }

/-- A program that creates and destroys `PythonReactor` objects: the static members and
the live objects, those constructed and not yet destroyed. -/
structure PythonProgram where
  statics : PythonStatics
  live : List PythonReactor
deriving DecidableEq, Repr

/-- What the program does with its reactors: construct one, configure, start or stop the
live object at an index, or destroy it. -/
inductive ProgramStep where
  | construct : ProgramStep
  | setConfig (index : Nat) (python_source filename : Option String) : ProgramStep
  | start (index : Nat) : ProgramStep
  | stop (index : Nat) : ProgramStep
  | destroy (index : Nat) : ProgramStep
deriving DecidableEq, Repr

/-- One step of the program. An exception thrown by a member function is caught by the
caller; the object a destructor was called on is no longer live, whether or not an
exception left the destructor. A step on an index with no live object does nothing. -/
def PythonProgram.step (world : PythonWorld) (p : PythonProgram) : ProgramStep → PythonProgram
  | ProgramStep.construct =>
      let made := PythonReactor.construct p.statics
      { statics := made.2, live := p.live ++ [made.1] }
  | ProgramStep.setConfig index python_source filename =>
      match p.live.get? index with
      | some r =>
          { p with live := p.live.set index (r.setConfig python_source filename world).reactor }
      | none => p
  | ProgramStep.start index =>
      match p.live.get? index with
      | some r => { p with live := p.live.set index (r.start world).reactor }
      | none => p
  | ProgramStep.stop index =>
      match p.live.get? index with
      | some r => { p with live := p.live.set index (r.stop world).reactor }
      | none => p
  | ProgramStep.destroy index =>
      match p.live.get? index with
      | some r =>
          { statics := (r.destruct p.statics world).statics, live := p.live.eraseIdx index }
      | none => p

/-- The program after a sequence of steps from its start: no object, counter 0. -/
def PythonProgram.run (world : PythonWorld) (steps : List ProgramStep) : PythonProgram :=
  steps.foldl (PythonProgram.step world) { statics := PythonStatics.initial, live := [] }

/-- An interpreter for the examples. Source files: `reactor.py` holds `fileContent`, no
other file exists. Compiling gives byte code 10 for the source `def start(): pass`,
byte code 20 for `def stop(): raise`, byte code 30 for
`def start(): raise`, and fails for any other text. Executing byte code `b` gives module
`b + 1`; module 11 has the callable attribute `start` (12), module 21 the callable
attribute `stop` (22) and module 31 the callable attribute `start` (32); every module
has the attribute `__name__` (40), a string, which is not callable. Calling 22 or 32
raises, calling any other function returns object 99. -/
def exampleWorld (fileContent : String) : PythonWorld :=
  { read_file := fun name =>
      if name = "reactor.py" then SourceFile.content fileContent else SourceFile.missing
    compile := fun source _ =>
      if source = "def start(): pass" then { retval := some 10, error := none }
      else if source = "def stop(): raise" then { retval := some 20, error := none }
      else if source = "def start(): raise" then { retval := some 30, error := none }
      else { retval := none, error := some "invalid syntax" }
    exec_module := fun byte_code => { retval := some (byte_code + 1), error := none }
    get_attr := fun module_ptr name =>
      if module_ptr = 11 ∧ name = "start" then some 12
      else if module_ptr = 21 ∧ name = "stop" then some 22
      else if module_ptr = 31 ∧ name = "start" then some 32
      else if name = "__name__" then some 40
      else none
    callable := fun func => func != 40
    call := fun func _ =>
      if func = 22 ∨ func = 32 then { retval := none, error := some "RuntimeError" }
      else { retval := some 99, error := none } }

/-- A program with one live reactor, running, whose Python `stop` function raises: the
reactor was constructed, configured with the source `def stop(): raise` and started. -/
def raisingStopProgram : PythonProgram :=
  PythonProgram.run (exampleWorld "")
    [ProgramStep.construct, ProgramStep.setConfig 0 (some "def stop(): raise") none,
     ProgramStep.start 0]

/-- The static members agree with the live objects: the counter is their number; with no
live object both pointers are null and every `Py_Initialize()` has been matched by a
`Py_Finalize()`; with a live object both pointers are set and one `Py_Initialize()` is
unmatched. -/
def PythonProgram.Consistent (p : PythonProgram) : Prop :=
  p.statics.m_init_num = p.live.length ∧
  (p.live.length = 0 →
    p.statics.m_interp_ptr = none ∧ p.statics.m_state_ptr = none ∧
    p.statics.py_initialize_calls = p.statics.py_finalize_calls) ∧
  (0 < p.live.length →
    p.statics.m_interp_ptr = some INTERPRETER_ADDRESS ∧
    p.statics.m_state_ptr = some STATE_PTR_ADDRESS ∧
    p.statics.py_initialize_calls = p.statics.py_finalize_calls + 1)

/-! ## Theorems -/

/-! ### Event comparison -/

theorem eventEqLoop_nil_left {V : Type} [BEq V] (l : List (Entry V)) :
    eventEqLoop [] l = l.isEmpty := by
  cases l <;> simp [eventEqLoop]

theorem eventEqLoop_nil_right {V : Type} [BEq V] (l : List (Entry V)) :
    eventEqLoop l [] = l.isEmpty := by
  cases l <;> simp [eventEqLoop]

theorem eventEqLoop_cons {V : Type} [BEq V] (a b : Entry V) (l1 l2 : List (Entry V)) :
    eventEqLoop (a :: l1) (b :: l2) = true ↔
      (a.term_ref = b.term_ref ∧ (a.value == b.value) = true) ∧ eventEqLoop l1 l2 = true := by
  simp only [eventEqLoop]
  by_cases ht : a.term_ref = b.term_ref
  · by_cases hv : (a.value == b.value) = true
    · simp [ht, hv]
    · simp [ht, hv]
  · simp [ht]

theorem eventEqLoop_iff {V : Type} [BEq V] (l1 l2 : List (Entry V)) :
    eventEqLoop l1 l2 = true ↔
      l1.length = l2.length ∧
      ∀ (i : Nat) (a b : Entry V), l1[i]? = some a → l2[i]? = some b →
        a.term_ref = b.term_ref ∧ (a.value == b.value) = true := by
  induction l1 generalizing l2 with
  | nil =>
    cases l2 with
    | nil => simp [eventEqLoop]
    | cons b l2 => simp [eventEqLoop]
  | cons a l1 ih =>
    cases l2 with
    | nil => simp [eventEqLoop]
    | cons b l2 =>
      rw [eventEqLoop_cons, ih]
      constructor
      · rintro ⟨hab, hlen, hrest⟩
        refine ⟨by simp [hlen], ?_⟩
        intro i x y hx hy
        cases i with
        | zero =>
          simp at hx hy
          subst hx; subst hy
          exact hab
        | succ i =>
          simp at hx hy
          exact hrest i x y hx hy
      · rintro ⟨hlen, hall⟩
        refine ⟨hall 0 a b (by simp) (by simp), by simpa using hlen, ?_⟩
        intro i x y hx hy
        exact hall (i + 1) x y (by simpa using hx) (by simpa using hy)

/-- C3: the tests' `operator==` on events returns true exactly when the two events have
the same number of entries and, at every position in iteration order, the same
`term_ref` and `==` values; it is false when some position differs and when the lengths
differ (so also when one event is a strict prefix of the other); and the result does not
depend on the events' event types. -/
theorem operatorEq_pairwise {V : Type} [BEq V] (e1 e2 : Event V) :
    (e1.operatorEq e2 = true ↔
      e1.entries.length = e2.entries.length ∧
      ∀ (i : Nat) (a b : Entry V), e1.entries[i]? = some a → e2.entries[i]? = some b →
        a.term_ref = b.term_ref ∧ (a.value == b.value) = true) ∧
    (∀ (i : Nat) (a b : Entry V), e1.entries[i]? = some a → e2.entries[i]? = some b →
      (a.term_ref ≠ b.term_ref ∨ (a.value == b.value) = false) →
        e1.operatorEq e2 = false) ∧
    (e1.entries.length ≠ e2.entries.length → e1.operatorEq e2 = false) ∧
    (∀ (x : Entry V) (rest : List (Entry V)),
      (e2.entries = e1.entries ++ x :: rest ∨ e1.entries = e2.entries ++ x :: rest) →
        e1.operatorEq e2 = false) ∧
    (∀ t1 t2 : TermRef,
      Event.operatorEq { e1 with m_event_type := t1 } { e2 with m_event_type := t2 } =
        e1.operatorEq e2) := by
  have key := eventEqLoop_iff e1.entries e2.entries
  refine ⟨key, ?_, ?_, ?_, ?_⟩
  · intro i a b ha hb hne
    cases hres : e1.operatorEq e2 with
    | false => rfl
    | true =>
      exfalso
      have h := (key.mp hres).2 i a b ha hb
      rcases hne with hne | hne
      · exact hne h.1
      · rw [h.2] at hne; exact Bool.noConfusion hne
  · intro hlen
    cases hres : e1.operatorEq e2 with
    | false => rfl
    | true => exact absurd (key.mp hres).1 hlen
  · intro x rest hpre
    cases hres : e1.operatorEq e2 with
    | false => rfl
    | true =>
      exfalso
      have hlen := (key.mp hres).1
      rcases hpre with h | h <;> rw [h] at hlen <;> simp at hlen
  · intro t1 t2
    rfl

/-! ### Text of values -/

theorem writeFields_cons_cons (f g : LogField) (fs : List LogField)
    (es : List (Entry ParameterValue)) :
    writeFields (f :: g :: fs) es =
      writeField f (findValue es f.log_term_ref) ++ SPACE :: writeFields (g :: fs) es := rfl

theorem writeFields_single (f : LogField) (es : List (Entry ParameterValue)) :
    writeFields [f] es = writeField f (findValue es f.log_term_ref) := rfl

/-- C6 (as amended): `start()` on a server that is not listening, when none of its
acceptor calls fails, opens the acceptor, sets reuse-address, binds it to the configured
port reduced modulo 2^16 (the configured port itself when that is below 65536) and makes
it listen, leaves the server listening, and arms exactly one accept, on a newly
allocated connection that is the one element the pool grows by. When one of the calls
fails, `start()` throws: the server is not listening, and the pool and the armed accepts
are as before. -/
theorem start_opens_and_arms_one_accept (s : TCPServer)
    (hstopped : s.m_is_listening = false) (hfresh : s.heap_next ∉ s.m_conn_pool) :
    s.startOrThrow none = { thrown := none, server := s.start } ∧
    s.start.m_tcp_acceptor.is_open = true ∧
    s.start.m_tcp_acceptor.reuse_address = true ∧
    s.start.m_tcp_acceptor.local_port = some (s.m_tcp_port % 65536) ∧
    (s.m_tcp_port < 65536 → s.start.m_tcp_acceptor.local_port = some s.m_tcp_port) ∧
    s.start.m_tcp_acceptor.is_listening = true ∧
    s.start.m_is_listening = true ∧
    s.start.m_tcp_acceptor.pending_accepts =
      s.m_tcp_acceptor.pending_accepts ++ [s.heap_next] ∧
    s.start.m_conn_pool = insert s.heap_next s.m_conn_pool ∧
    s.start.m_conn_pool.card = s.m_conn_pool.card + 1 ∧
    s.start.protocol_connections = s.protocol_connections ∧
    s.start.io_service_queue = s.io_service_queue ∧
    (∀ call : AcceptorCall,
      (s.startOrThrow (some call)).thrown = some call ∧
      (s.startOrThrow (some call)).server.m_is_listening = false ∧
      (s.startOrThrow (some call)).server.m_tcp_acceptor.is_listening =
        s.m_tcp_acceptor.is_listening ∧
      (s.startOrThrow (some call)).server.m_conn_pool = s.m_conn_pool ∧
      (s.startOrThrow (some call)).server.m_tcp_acceptor.pending_accepts =
        s.m_tcp_acceptor.pending_accepts) := by
  have hport : s.start.m_tcp_acceptor.local_port = some (s.m_tcp_port % 65536) := by
    simp [TCPServer.start, TCPServer.listen, hstopped, Acceptor.async_accept, Acceptor.listen,
      Acceptor.bind, Acceptor.set_reuse_address, Acceptor.open_, endpointPort, PORT_RANGE]
  refine ⟨?_, ?_, ?_, hport, ?_, ?_, ?_, ?_, ?_, ?_, ?_, ?_, ?_⟩
  · simp [TCPServer.startOrThrow, TCPServer.start, hstopped]
  · simp [TCPServer.start, TCPServer.listen, hstopped, Acceptor.async_accept, Acceptor.listen,
      Acceptor.bind, Acceptor.set_reuse_address, Acceptor.open_]
  · simp [TCPServer.start, TCPServer.listen, hstopped, Acceptor.async_accept, Acceptor.listen,
      Acceptor.bind, Acceptor.set_reuse_address, Acceptor.open_]
  · intro hlt
    rw [hport, Nat.mod_eq_of_lt hlt]
  · simp [TCPServer.start, TCPServer.listen, hstopped, Acceptor.async_accept, Acceptor.listen,
      Acceptor.bind, Acceptor.set_reuse_address, Acceptor.open_]
  · simp [TCPServer.start, TCPServer.listen, hstopped]
  · simp [TCPServer.start, TCPServer.listen, hstopped, Acceptor.async_accept, Acceptor.listen,
      Acceptor.bind, Acceptor.set_reuse_address, Acceptor.open_]
  · simp [TCPServer.start, TCPServer.listen, hstopped]
  · simp [TCPServer.start, TCPServer.listen, hstopped, Finset.card_insert_of_not_mem hfresh]
  · simp [TCPServer.start, TCPServer.listen, hstopped]
  · simp [TCPServer.start, TCPServer.listen, hstopped]
  · intro call
    cases call <;>
      simp [TCPServer.startOrThrow, hstopped, Acceptor.bind, Acceptor.set_reuse_address,
        Acceptor.open_]

theorem start_opens_and_arms_one_accept_witness :
    (TCPServer.create 8080).m_is_listening = false ∧
    (TCPServer.create 8080).start.m_is_listening = true ∧
    (TCPServer.create 8080).start.m_tcp_acceptor.local_port = some 8080 ∧
    (TCPServer.create 8080).start.m_tcp_acceptor.pending_accepts = [] ++ [0] ∧
    (TCPServer.create 8080).start.m_conn_pool.card = 0 + 1 ∧
    ((TCPServer.create 8080).startOrThrow (some AcceptorCall.bind)).thrown =
      some AcceptorCall.bind ∧
    ((TCPServer.create 8080).startOrThrow (some AcceptorCall.bind)).server.m_is_listening =
      false :=
  have h := start_opens_and_arms_one_accept (TCPServer.create 8080) rfl (by decide)
  ⟨rfl, h.2.2.2.2.2.2.1, h.2.2.2.2.1 (by decide), h.2.2.2.2.2.2.2.1, h.2.2.2.2.2.2.2.2.2.1,
    (h.2.2.2.2.2.2.2.2.2.2.2.2 AcceptorCall.bind).1,
    (h.2.2.2.2.2.2.2.2.2.2.2.2 AcceptorCall.bind).2.1⟩

/-- C6, counterexample: a server constructed with port 70000 is started. The acceptor is
not bound to the configured port: the port is narrowed to the 16 bits of the endpoint
and the acceptor is bound to 4464. -/
theorem start_binds_narrowed_port :
    (TCPServer.create 70000).m_is_listening = false ∧
    (TCPServer.create 70000).m_tcp_port = 70000 ∧
    ((TCPServer.create 70000).startOrThrow none).thrown = none ∧
    (TCPServer.create 70000).start.m_is_listening = true ∧
    (TCPServer.create 70000).start.m_tcp_acceptor.local_port = some 4464 ∧
    (TCPServer.create 70000).start.m_tcp_acceptor.local_port ≠
      some (TCPServer.create 70000).m_tcp_port := by
  decide

/-- C7: when an accept completes without error on a listening server,
`handleConnection` allocates one new connection, inserts it into the pool and arms the
next accept on it, and hands the accepted connection to the protocol handler exactly
once; the accepted connection, when pooled, stays in the pool, and the server stays
listening. -/
theorem handleConnection_rearms_and_dispatches (s : TCPServer) (conn : TCPConnectionPtr)
    (hlistening : s.m_is_listening = true) (hfresh : s.heap_next ∉ s.m_conn_pool) :
    (s.handleConnection conn false).heap_next = s.heap_next + 1 ∧
    (s.handleConnection conn false).m_conn_pool = insert s.heap_next s.m_conn_pool ∧
    (s.handleConnection conn false).m_conn_pool.card = s.m_conn_pool.card + 1 ∧
    (s.handleConnection conn false).m_tcp_acceptor.pending_accepts =
      s.m_tcp_acceptor.pending_accepts ++ [s.heap_next] ∧
    (s.handleConnection conn false).protocol_connections =
      s.protocol_connections ++ [conn] ∧
    (s.handleConnection conn false).protocol_connections.count conn =
      s.protocol_connections.count conn + 1 ∧
    (conn ∈ s.m_conn_pool → conn ∈ (s.handleConnection conn false).m_conn_pool) ∧
    (s.handleConnection conn false).m_is_listening = true := by
  simp [TCPServer.handleConnection, TCPServer.listen, hlistening, Acceptor.async_accept,
    Finset.card_insert_of_not_mem hfresh]
  intro h
  exact Or.inr h

theorem handleConnection_rearms_and_dispatches_witness :
    (TCPServer.create 8080).start.m_is_listening = true ∧
    ((TCPServer.create 8080).start.handleConnection 0 false).m_conn_pool =
      insert (TCPServer.create 8080).start.heap_next (TCPServer.create 8080).start.m_conn_pool ∧
    ((TCPServer.create 8080).start.handleConnection 0 false).protocol_connections =
      (TCPServer.create 8080).start.protocol_connections ++ [0] :=
  have h := handleConnection_rearms_and_dispatches (TCPServer.create 8080).start 0
    (by decide) (by decide)
  ⟨by decide, h.2.1, h.2.2.2.2.1⟩

/-- C8: `stop()` on a listening server posts exactly one stop task and changes nothing
else; when that task, `handleStopRequest`, runs (on the state `stop` left, or on any
later listening state), the acceptor is closed, `close` has been called on every
connection that was in the pool, the pool is empty and the server is not listening.
`stop()` on a server that is not listening changes nothing, so it posts nothing. -/
theorem stop_posts_task_that_clears_pool (s : TCPServer) :
    (s.m_is_listening = true →
      s.stop = { s with io_service_queue := s.io_service_queue ++ [Handler.handleStopRequest] } ∧
      s.stop.handleStopRequest.m_tcp_acceptor.is_open = false ∧
      s.stop.handleStopRequest.m_tcp_acceptor.pending_accepts = [] ∧
      (∀ c ∈ s.m_conn_pool, c ∈ s.stop.handleStopRequest.closed_connections) ∧
      s.stop.handleStopRequest.m_conn_pool = ∅ ∧
      s.stop.handleStopRequest.m_is_listening = false) ∧
    (∀ t : TCPServer, t.m_is_listening = true →
      t.handleStopRequest.m_tcp_acceptor.is_open = false ∧
      (∀ c ∈ t.m_conn_pool, c ∈ t.handleStopRequest.closed_connections) ∧
      t.handleStopRequest.m_conn_pool = ∅ ∧
      t.handleStopRequest.m_is_listening = false) ∧
    (s.m_is_listening = false → s.stop = s) := by
  refine ⟨?_, ?_, ?_⟩
  · intro h
    simp [TCPServer.stop, TCPServer.handleStopRequest, h, Acceptor.close, Acceptor.closed]
    intro c hc
    exact Or.inr hc
  · intro t h
    simp [TCPServer.handleStopRequest, h, Acceptor.close, Acceptor.closed]
    intro c hc
    exact Or.inr hc
  · intro h
    simp [TCPServer.stop, h]

theorem stop_posts_task_that_clears_pool_witness :
    (TCPServer.create 8080).start.m_is_listening = true ∧
    (TCPServer.create 8080).start.stop.io_service_queue = [Handler.handleStopRequest] ∧
    (TCPServer.create 8080).start.stop.handleStopRequest.m_conn_pool = ∅ ∧
    (TCPServer.create 8080).stop = TCPServer.create 8080 :=
  have h := stop_posts_task_that_clears_pool (TCPServer.create 8080).start
  have h0 := stop_posts_task_that_clears_pool (TCPServer.create 8080)
  ⟨by decide, by rw [(h.1 (by decide)).1]; rfl, (h.1 (by decide)).2.2.2.2.1, h0.2.2 rfl⟩

/-- C9: `finishConnection(conn)` removes exactly `conn` from the pool: afterwards `conn`
is not pooled, every other connection is pooled exactly when it was before, and the
listening flag and all other members are unchanged; for a connection that is not in the
pool the whole state is unchanged. -/
theorem finishConnection_removes_exactly_conn (s : TCPServer) (conn : TCPConnectionPtr) :
    conn ∉ (s.finishConnection conn).m_conn_pool ∧
    (∀ c : TCPConnectionPtr, c ≠ conn →
      (c ∈ (s.finishConnection conn).m_conn_pool ↔ c ∈ s.m_conn_pool)) ∧
    (s.finishConnection conn).m_is_listening = s.m_is_listening ∧
    s.finishConnection conn = { s with m_conn_pool := s.m_conn_pool.erase conn } ∧
    (conn ∉ s.m_conn_pool → s.finishConnection conn = s) := by
  refine ⟨?_, ?_, rfl, rfl, ?_⟩
  · simp [TCPServer.finishConnection]
  · intro c hc
    simp [TCPServer.finishConnection, hc]
  · intro h
    simp [TCPServer.finishConnection, Finset.erase_eq_of_not_mem h]

theorem LoadState.inv_init (port : Nat) :
    LoadState.Inv { server := TCPServer.create port, clients := ∅ } := by
  simp [LoadState.Inv, TCPServer.create, Acceptor.closed]

theorem LoadState.inv_step (st : LoadState) (ev : ServerEvent) (h : st.Inv) :
    (st.step ev).Inv := by
  obtain ⟨hstopped, hlen, hsub⟩ := h
  cases ev with
  | start =>
    cases hl : st.server.m_is_listening with
    | true =>
      have : st.server.start = st.server := by simp [TCPServer.start, hl]
      simp only [LoadState.step, this]
      exact ⟨hstopped, hlen, hsub⟩
    | false =>
      have hp := hstopped hl
      refine ⟨?_, ?_, ?_⟩
      · simp [LoadState.step, TCPServer.start, TCPServer.listen, hl]
      · simp [LoadState.step, TCPServer.start, TCPServer.listen, hl, Acceptor.async_accept,
          Acceptor.listen, Acceptor.bind, Acceptor.set_reuse_address, Acceptor.open_, hp]
      · intro x hx
        simp [LoadState.step, TCPServer.start, TCPServer.listen, hl, Acceptor.async_accept,
          Acceptor.listen, Acceptor.bind, Acceptor.set_reuse_address, Acceptor.open_, hp]
          at hx ⊢
        rcases hx with hx | hx
        · exact Or.inr hx
        · have := hsub hx
          simp [hp] at this
          exact Or.inl this
  | acceptCompleted conn accept_error =>
    by_cases hmem : conn ∈ st.server.m_tcp_acceptor.pending_accepts
    · have hlen1 : (st.server.m_tcp_acceptor.pending_accepts.erase conn).length = 0 := by
        rw [List.length_erase_of_mem hmem]
        omega
      have hnil : st.server.m_tcp_acceptor.pending_accepts.erase conn = [] :=
        List.length_eq_zero.mp hlen1
      have hpend : st.server.m_tcp_acceptor.pending_accepts = [conn] := by
        cases hp : st.server.m_tcp_acceptor.pending_accepts with
        | nil => rw [hp] at hmem; simp at hmem
        | cons a l =>
          rw [hp] at hlen hmem
          have hl0 : l = [] := List.length_eq_zero.mp (by simpa using hlen)
          subst hl0
          simp at hmem
          rw [hmem]
      have hlisten : st.server.m_is_listening = true := by
        cases hl : st.server.m_is_listening with
        | true => rfl
        | false => rw [hstopped hl] at hmem; simp at hmem
      cases accept_error with
      | true =>
        refine ⟨?_, ?_, ?_⟩
        · simp [LoadState.step, hmem, TCPServer.acceptCompleted, TCPServer.handleConnection,
            TCPServer.finishConnection, hlisten]
        · simp [LoadState.step, hmem, TCPServer.acceptCompleted, TCPServer.handleConnection,
            TCPServer.finishConnection, hnil]
        · intro x hx
          simp [LoadState.step, hmem, TCPServer.acceptCompleted, TCPServer.handleConnection,
            TCPServer.finishConnection, hnil] at hx ⊢
          have := hsub hx.2
          simp [hpend] at this
          rcases this with h1 | h1
          · exact h1
          · exact absurd h1 hx.1
      | false =>
        refine ⟨?_, ?_, ?_⟩
        · simp [LoadState.step, hmem, TCPServer.acceptCompleted, TCPServer.handleConnection,
            TCPServer.listen, hlisten]
        · simp [LoadState.step, hmem, TCPServer.acceptCompleted, TCPServer.handleConnection,
            TCPServer.listen, hlisten, Acceptor.async_accept, hnil]
        · intro x hx
          simp [LoadState.step, hmem, TCPServer.acceptCompleted, TCPServer.handleConnection,
            TCPServer.listen, hlisten, Acceptor.async_accept, hnil] at hx ⊢
          rcases hx with hx | hx
          · exact Or.inr (Or.inr hx)
          · have := hsub hx
            simp [hpend] at this
            rcases this with h1 | h1
            · exact Or.inr (Or.inl h1)
            · exact Or.inl h1
    · simp only [LoadState.step, hmem, if_false]
      exact ⟨hstopped, hlen, hsub⟩
  | finishConnection conn =>
    refine ⟨?_, ?_, ?_⟩
    · simpa [LoadState.step, TCPServer.finishConnection] using hstopped
    · simpa [LoadState.step, TCPServer.finishConnection] using hlen
    · intro x hx
      simp [LoadState.step, TCPServer.finishConnection] at hx ⊢
      have := hsub hx.2
      simp at this
      rcases this with h1 | h1
      · exact Or.inl ⟨hx.1, h1⟩
      · exact Or.inr h1

theorem LoadState.inv_foldl (events : List ServerEvent) (st : LoadState) (h : st.Inv) :
    (events.foldl LoadState.step st).Inv := by
  induction events generalizing st with
  | nil => exact h
  | cons ev rest ih => exact ih (st.step ev) (LoadState.inv_step st ev h)

theorem LoadState.inv_run (port : Nat) (events : List ServerEvent) :
    (LoadState.run port events).Inv :=
  LoadState.inv_foldl events _ (LoadState.inv_init port)

/-- C10 (as amended): in every state of a server reachable from its construction through
`start`, accept completions and `finishConnection` calls, with M clients currently
connected, the pool holds at most M + 1 connections: the clients' connections and the
one allocated for the armed accept. Once every client's connection has been finished,
the pool holds only the connection awaiting the armed accept, so at most one. -/
theorem pool_bounded_by_clients_plus_armed_accept (port : Nat) (events : List ServerEvent) :
    (LoadState.run port events).server.m_conn_pool.card ≤
      (LoadState.run port events).clients.card + 1 ∧
    ((LoadState.run port events).clients = ∅ →
      (LoadState.run port events).server.m_conn_pool ⊆
        (LoadState.run port events).server.m_tcp_acceptor.pending_accepts.toFinset ∧
      (LoadState.run port events).server.m_conn_pool.card ≤ 1) := by
  obtain ⟨_, hlen, hsub⟩ := LoadState.inv_run port events
  have hcard : (LoadState.run port events).server.m_tcp_acceptor.pending_accepts.toFinset.card
      ≤ 1 := le_trans (List.toFinset_card_le _) hlen
  constructor
  · calc (LoadState.run port events).server.m_conn_pool.card
        ≤ ((LoadState.run port events).clients ∪
            (LoadState.run port events).server.m_tcp_acceptor.pending_accepts.toFinset).card :=
          Finset.card_le_card hsub
      _ ≤ (LoadState.run port events).clients.card +
            (LoadState.run port events).server.m_tcp_acceptor.pending_accepts.toFinset.card :=
          Finset.card_union_le _ _
      _ ≤ (LoadState.run port events).clients.card + 1 := by omega
  · intro hempty
    rw [hempty, Finset.empty_union] at hsub
    exact ⟨hsub, le_trans (Finset.card_le_card hsub) hcard⟩

/-- C10, counterexample: right after `start()` the server listens, no client is
connected, and the pool already holds one connection (the one awaiting the accept), so
the pool is not bounded by the number of clients; and after one client has connected
and its connection has been finished, no client is connected and the pool still holds
one connection. -/
theorem pool_exceeds_client_count :
    (LoadState.run 8080 [ServerEvent.start]).server.m_is_listening = true ∧
    (LoadState.run 8080 [ServerEvent.start]).clients.card = 0 ∧
    (LoadState.run 8080 [ServerEvent.start]).server.m_conn_pool.card = 1 ∧
    ¬ ((LoadState.run 8080 [ServerEvent.start]).server.m_conn_pool.card ≤
        (LoadState.run 8080 [ServerEvent.start]).clients.card) ∧
    (LoadState.run 8080 [ServerEvent.start, ServerEvent.acceptCompleted 0 false,
      ServerEvent.finishConnection 0]).server.m_is_listening = true ∧
    (LoadState.run 8080 [ServerEvent.start, ServerEvent.acceptCompleted 0 false,
      ServerEvent.finishConnection 0]).clients = ∅ ∧
    (LoadState.run 8080 [ServerEvent.start, ServerEvent.acceptCompleted 0 false,
      ServerEvent.finishConnection 0]).server.m_conn_pool = {1} := by
  decide

/-- C11 (as amended): when an accept completes with an error, `handleConnection` removes
that connection from the pool, and that is all it does: `close` is called on no
connection, the connection is not handed to the protocol handler, the listening flag,
the acceptor and the scheduler queue are unchanged, and every other connection is pooled
exactly when it was before. -/
theorem handleConnection_error_only_erases (s : TCPServer) (conn : TCPConnectionPtr) :
    (s.handleConnection conn true).m_conn_pool = s.m_conn_pool.erase conn ∧
    conn ∉ (s.handleConnection conn true).m_conn_pool ∧
    (∀ c : TCPConnectionPtr, c ≠ conn →
      (c ∈ (s.handleConnection conn true).m_conn_pool ↔ c ∈ s.m_conn_pool)) ∧
    (s.handleConnection conn true).protocol_connections = s.protocol_connections ∧
    (s.handleConnection conn true).m_is_listening = s.m_is_listening ∧
    (s.handleConnection conn true).closed_connections = s.closed_connections ∧
    (s.handleConnection conn true).m_tcp_acceptor = s.m_tcp_acceptor ∧
    (s.handleConnection conn true).io_service_queue = s.io_service_queue := by
  refine ⟨rfl, ?_, ?_, rfl, rfl, rfl, rfl, rfl⟩
  · simp [TCPServer.handleConnection, TCPServer.finishConnection]
  · intro c hc
    simp [TCPServer.handleConnection, TCPServer.finishConnection, hc]

/-- C11, counterexample: on a server that has just been started, the accept armed on
connection 0 completes with an error; `handleConnection` removes the connection from the
pool, and `close` has been called on no connection, connection 0 included. -/
theorem failed_accept_is_not_closed :
    (TCPServer.create 8080).start.m_tcp_acceptor.pending_accepts = [0] ∧
    ((TCPServer.create 8080).start.handleConnection 0 true).m_conn_pool = ∅ ∧
    0 ∉ ((TCPServer.create 8080).start.handleConnection 0 true).closed_connections ∧
    ((TCPServer.create 8080).start.acceptCompleted 0 true).closed_connections = ∅ ∧
    ((TCPServer.create 8080).start.acceptCompleted 0 true).m_is_listening = true := by
  decide

/-! ### Reaction engine -/

theorem PluginManager.get_eq_some (plugins : List (String × Reactor)) (plugin_id : String)
    (h : plugin_id ∈ plugins.map Prod.fst) :
    PluginManager.get plugins plugin_id = some plugin_id := by
  induction plugins with
  | nil => simp at h
  | cons p rest ih =>
    obtain ⟨id, r⟩ := p
    by_cases hid : id = plugin_id
    · simp [PluginManager.get, PluginManager.find, hid]
    · have hrest : plugin_id ∈ rest.map Prod.fst := by
        simp only [List.map_cons, List.mem_cons] at h
        rcases h with h | h
        · exact absurd h.symm hid
        · exact h
      have := ih hrest
      simp only [PluginManager.get, PluginManager.find, hid, if_false] at this ⊢
      exact this

theorem PluginManager.getStatistic_foldl (plugins : List (String × Reactor))
    (stat_func : Reactor → Nat) (total : Nat) :
    plugins.foldl (fun total p => (total + stat_func p.2) % UINT64_RANGE)
        (total % UINT64_RANGE) =
      (total + (plugins.map (fun p => stat_func p.2)).sum) % UINT64_RANGE := by
  induction plugins generalizing total with
  | nil => simp
  | cons p rest ih =>
    simp only [List.foldl_cons, List.map_cons, List.sum_cons]
    rw [ih (total % UINT64_RANGE + stat_func p.2)]
    rw [Nat.add_mod (total % UINT64_RANGE + stat_func p.2), Nat.add_mod (total % UINT64_RANGE),
      Nat.mod_mod, ← Nat.add_mod total, ← Nat.add_mod, Nat.add_assoc]

theorem PluginManager.getStatistic_eq_sum (plugins : List (String × Reactor))
    (stat_func : Reactor → Nat) :
    PluginManager.getStatistic plugins stat_func =
      (plugins.map (fun p => stat_func p.2)).sum % UINT64_RANGE := by
  have h := PluginManager.getStatistic_foldl plugins stat_func 0
  simpa [PluginManager.getStatistic] using h

theorem PluginManager.getStatisticFor_keys (plugins : List (String × Reactor))
    (stat_func : Reactor → Nat) (hkeys : (plugins.map Prod.fst).Nodup) :
    (plugins.map Prod.fst).map
        (fun id => (PluginManager.getStatisticFor plugins id stat_func).getD 0) =
      plugins.map (fun p => stat_func p.2) := by
  induction plugins with
  | nil => rfl
  | cons p rest ih =>
    obtain ⟨id, r⟩ := p
    rw [List.map_cons, List.nodup_cons] at hkeys
    simp only [List.map_cons, List.map_map]
    congr 1
    · simp [PluginManager.getStatisticFor, PluginManager.find]
    · rw [← ih hkeys.2, List.map_map]
      apply List.map_congr_left
      intro q hq
      have hne : id ≠ q.1 := by
        intro hc
        exact hkeys.1 (by rw [hc]; exact List.mem_map.mpr ⟨q, hq, rfl⟩)
      simp [PluginManager.getStatisticFor, PluginManager.find, hne]

/-- C13 (as amended): `send(reactor_id, e)` does not consult the engine's running flag.
On an engine that is not running it still posts exactly one task, `Reactor::send` bound
to the reactor looked up for `reactor_id` and to `e`, and leaves the flag as it is; for a
registered reactor, the scheduler then calls `Reactor::send(e)` on that reactor. Whether
the reactor processes the event is decided in `Reactor::send`, not in the engine. -/
theorem send_posts_while_not_running (eng : ReactionEngine) (reactor_id : String)
    (e : EventPtr) (hstopped : eng.m_is_running = false) :
    (eng.send reactor_id e).io_service_queue =
      eng.io_service_queue ++
        [EngineHandler.reactorSend (PluginManager.get eng.m_plugins reactor_id) e] ∧
    (eng.send reactor_id e).io_service_queue.length = eng.io_service_queue.length + 1 ∧
    (eng.send reactor_id e).m_is_running = false ∧
    eng.send reactor_id e =
      { ({ eng with m_is_running := true } : ReactionEngine).send reactor_id e with
        m_is_running := false } ∧
    (reactor_id ∈ eng.m_plugins.map Prod.fst → eng.io_service_queue = [] →
      (eng.send reactor_id e).poll =
        Except.ok { eng with
          reactor_send_calls := eng.reactor_send_calls ++ [(reactor_id, e)] }) := by
  refine ⟨rfl, by simp [ReactionEngine.send], hstopped, ?_, ?_⟩
  · simp [ReactionEngine.send, hstopped]
  · intro hmem hqueue
    simp [ReactionEngine.send, ReactionEngine.poll, hqueue,
      PluginManager.get_eq_some eng.m_plugins reactor_id hmem, ReactionEngine.runHandler]

theorem send_posts_while_not_running_witness :
    stoppedEngine.m_is_running = false ∧
    (stoppedEngine.send "reactor-a" bytesEvent).io_service_queue.length = 0 + 1 ∧
    (stoppedEngine.send "reactor-a" bytesEvent).m_is_running = false :=
  have h := send_posts_while_not_running stoppedEngine "reactor-a" bytesEvent rfl
  ⟨rfl, h.2.1, h.2.2.1⟩

/-- C13, counterexample: on an engine that is not running, `send` for a registered
reactor posts a task to the scheduler, and when the scheduler runs it `Reactor::send` is
called on that reactor with the event. -/
theorem send_posts_task_on_stopped_engine :
    stoppedEngine.m_is_running = false ∧
    stoppedEngine.io_service_queue = [] ∧
    (stoppedEngine.send "reactor-a" bytesEvent).io_service_queue =
      [EngineHandler.reactorSend (some "reactor-a") bytesEvent] ∧
    (stoppedEngine.send "reactor-a" bytesEvent).poll =
      Except.ok { stoppedEngine with reactor_send_calls := [("reactor-a", bytesEvent)] } := by
  refine ⟨rfl, rfl, rfl, rfl⟩

/-- C14 (as amended): `getTotalOperations()` equals the sum, over every reactor
registered in the engine, of the value `getEventsIn(id)` returns for it, reduced modulo
2^64 (the counters and the total are `boost::uint64_t`); it is that sum itself whenever
the sum is below 2^64, and 0 for an engine with no reactors. -/
theorem getTotalOperations_is_sum_modulo (eng : ReactionEngine)
    (hkeys : (eng.m_plugins.map Prod.fst).Nodup) :
    eng.getTotalOperations =
      ((eng.m_plugins.map Prod.fst).map (fun id => (eng.getEventsIn id).getD 0)).sum %
        UINT64_RANGE ∧
    (((eng.m_plugins.map Prod.fst).map (fun id => (eng.getEventsIn id).getD 0)).sum <
        UINT64_RANGE →
      eng.getTotalOperations =
        ((eng.m_plugins.map Prod.fst).map (fun id => (eng.getEventsIn id).getD 0)).sum) ∧
    (∀ p ∈ eng.m_plugins, eng.getEventsIn p.1 ≠ none) ∧
    (eng.m_plugins = [] → eng.getTotalOperations = 0) := by
  have hsum : eng.getTotalOperations =
      ((eng.m_plugins.map Prod.fst).map (fun id => (eng.getEventsIn id).getD 0)).sum %
        UINT64_RANGE := by
    have h1 := PluginManager.getStatistic_eq_sum eng.m_plugins Reactor.getEventsIn
    have h2 := PluginManager.getStatisticFor_keys eng.m_plugins Reactor.getEventsIn hkeys
    simp only [ReactionEngine.getTotalOperations, ReactionEngine.getEventsIn]
    rw [h1, h2]
  refine ⟨hsum, ?_, ?_, ?_⟩
  · intro hlt
    rw [hsum, Nat.mod_eq_of_lt hlt]
  · intro p hp
    have hmem : p.1 ∈ eng.m_plugins.map Prod.fst := List.mem_map.mpr ⟨p, hp, rfl⟩
    have hget := PluginManager.get_eq_some eng.m_plugins p.1 hmem
    intro hnone
    simp only [ReactionEngine.getEventsIn, PluginManager.getStatisticFor,
      Option.map_eq_none'] at hnone
    simp [PluginManager.get, hnone] at hget
  · intro hempty
    simp [ReactionEngine.getTotalOperations, PluginManager.getStatistic, hempty]

theorem getTotalOperations_is_sum_modulo_witness :
    (stoppedEngine.m_plugins.map Prod.fst).Nodup ∧
    stoppedEngine.getTotalOperations = 8 ∧
    ((stoppedEngine.m_plugins.map Prod.fst).map
      (fun id => (stoppedEngine.getEventsIn id).getD 0)).sum = 8 :=
  have h := getTotalOperations_is_sum_modulo stoppedEngine (by decide)
  ⟨by decide, by rw [h.2.1 (by decide)]; decide, by decide⟩

/-- C14, counterexample: with two registered reactors that have each received 2^63
events, `getEventsIn` returns 2^63 for each, their sum is 2^64, and
`getTotalOperations()` returns 0. -/
theorem getTotalOperations_wraps :
    (saturatedEngine.m_plugins.map Prod.fst).Nodup ∧
    saturatedEngine.getEventsIn "reactor-a" = some 9223372036854775808 ∧
    saturatedEngine.getEventsIn "reactor-b" = some 9223372036854775808 ∧
    ((saturatedEngine.m_plugins.map Prod.fst).map
      (fun id => (saturatedEngine.getEventsIn id).getD 0)).sum = 18446744073709551616 ∧
    saturatedEngine.getTotalOperations = 0 := by
  decide


/-! ### Python reactor -/

/-- C15: when the Python `process()` function raises during `process(e)`, `process`
throws `PythonRuntimeException` with the text of the Python error, `deliverEvent` is not
called (the only action is the call of the Python function), and the running flag, the
module and the bound functions are unchanged, so a running reactor remains running. -/
theorem process_raising_drops_event (r : PythonReactor) (e : EventPtr) (py : ProcessPython)
    (process_func python_dict python_args : PyObject) (error_str : String)
    (hfunc : r.m_process_func = some process_func)
    (hdict : py.python_dict = some python_dict)
    (hargs : py.python_args = some python_args)
    (hnull : py.call.retval = none)
    (herror : py.call.error = some error_str) :
    (r.process e py).thrown = some (PythonException.PythonRuntimeException error_str) ∧
    (r.process e py).reactor.actions =
      r.actions ++ [ReactorAction.callPython process_func (some python_args)] ∧
    (∀ e2 : EventPtr, (r.process e py).reactor.actions.count (ReactorAction.deliverEvent e2) =
      r.actions.count (ReactorAction.deliverEvent e2)) ∧
    (r.process e py).reactor.m_is_running = r.m_is_running ∧
    (r.process e py).reactor.m_process_func = r.m_process_func ∧
    (r.process e py).reactor.m_start_func = r.m_start_func ∧
    (r.process e py).reactor.m_stop_func = r.m_stop_func ∧
    (r.process e py).reactor.m_module = r.m_module ∧
    (r.process e py).reactor.m_byte_code = r.m_byte_code ∧
    (r.m_is_running = true → (r.process e py).reactor.m_is_running = true) := by
  have hproc : r.process e py =
      { thrown := some (PythonException.PythonRuntimeException error_str),
        reactor := { r with actions :=
          r.actions ++ [ReactorAction.callPython process_func (some python_args)] } } := by
    simp [PythonReactor.process, hfunc, hdict, hargs, hnull, herror, getPythonError]
  rw [hproc]
  refine ⟨rfl, rfl, ?_, rfl, rfl, rfl, rfl, rfl, rfl, fun h => h⟩
  intro e2
  simp [List.count_append]

theorem process_raising_drops_event_witness :
    runningPythonReactor.m_process_func = some 12 ∧
    raisingProcess.call.retval = none ∧
    (runningPythonReactor.process bytesEvent raisingProcess).thrown =
      some (PythonException.PythonRuntimeException "division by zero") ∧
    (runningPythonReactor.process bytesEvent raisingProcess).reactor.actions =
      [] ++ [ReactorAction.callPython 12 (some 21)] :=
  have h := process_raising_drops_event runningPythonReactor bytesEvent raisingProcess
    12 20 21 "division by zero" rfl rfl rfl rfl rfl
  ⟨rfl, rfl, h.1, h.2.1⟩

/-- C16: for every event `e`, when the Python `process()` function is called and returns
normally, `process(e)` throws nothing and calls `deliverEvent` exactly once, with `e`,
right after the call of the Python function; when the module defines no `process`
function, `process(e)` throws nothing and its only action is `deliverEvent(e)`. -/
theorem process_delivers_event_once (r : PythonReactor) (e : EventPtr) (py : ProcessPython) :
    (∀ process_func python_dict python_args retval : PyObject,
      r.m_process_func = some process_func →
      py.python_dict = some python_dict →
      py.python_args = some python_args →
      py.call.retval = some retval →
        (r.process e py).thrown = none ∧
        (r.process e py).reactor.actions =
          r.actions ++ [ReactorAction.callPython process_func (some python_args),
                        ReactorAction.deliverEvent e] ∧
        (r.process e py).reactor.actions.count (ReactorAction.deliverEvent e) =
          r.actions.count (ReactorAction.deliverEvent e) + 1) ∧
    (r.m_process_func = none →
      (r.process e py).thrown = none ∧
      (r.process e py).reactor.actions = r.actions ++ [ReactorAction.deliverEvent e] ∧
      (r.process e py).reactor.actions.count (ReactorAction.deliverEvent e) =
        r.actions.count (ReactorAction.deliverEvent e) + 1) := by
  constructor
  · intro process_func python_dict python_args retval hfunc hdict hargs hret
    have hproc : r.process e py =
        { thrown := none,
          reactor := { r with actions :=
            r.actions ++ [ReactorAction.callPython process_func (some python_args),
                          ReactorAction.deliverEvent e] } } := by
      simp [PythonReactor.process, hfunc, hdict, hargs, hret, PythonReactor.deliverEvent]
    rw [hproc]
    refine ⟨rfl, rfl, ?_⟩
    simp [List.count_append, List.count_cons]
  · intro hfunc
    have hproc : r.process e py =
        { thrown := none,
          reactor := { r with actions := r.actions ++ [ReactorAction.deliverEvent e] } } := by
      simp [PythonReactor.process, hfunc, PythonReactor.deliverEvent]
    rw [hproc]
    refine ⟨rfl, rfl, ?_⟩
    simp [List.count_append]

theorem process_delivers_event_once_witness :
    runningPythonReactor.m_process_func = some 12 ∧
    returningProcess.call.retval = some 22 ∧
    (runningPythonReactor.process bytesEvent returningProcess).thrown = none ∧
    (runningPythonReactor.process bytesEvent returningProcess).reactor.actions =
      [] ++ [ReactorAction.callPython 12 (some 21), ReactorAction.deliverEvent bytesEvent] ∧
    (({ runningPythonReactor with m_process_func := none } : PythonReactor).process bytesEvent
      raisingProcess).reactor.actions = [] ++ [ReactorAction.deliverEvent bytesEvent] :=
  have h := process_delivers_event_once runningPythonReactor bytesEvent returningProcess
  have h1 := h.1 12 20 21 22 rfl rfl rfl rfl
  have h2 := (process_delivers_event_once
    ({ runningPythonReactor with m_process_func := none } : PythonReactor) bytesEvent
    raisingProcess).2 rfl
  ⟨rfl, rfl, h1.1, h1.2.1, h2.2.1⟩



/-! ### The format of written records -/

theorem intercalate_cons_cons {α : Type} (sep x y : List α) (rest : List (List α)) :
    List.intercalate sep (x :: y :: rest) = x ++ (sep ++ List.intercalate sep (y :: rest)) := by
  simp [List.intercalate, List.intersperse]

theorem writeFields_eq_intercalate (fs : List LogField) (es : List (Entry ParameterValue)) :
    writeFields fs es =
      List.intercalate [SPACE]
        (fs.map (fun f => writeField f (findValue es f.log_term_ref))) := by
  induction fs with
  | nil => rfl
  | cons f rest ih =>
    cases rest with
    | nil => simp [writeFields_single, List.intercalate, List.intersperse]
    | cons g rest2 =>
      rw [writeFields_cons_cons, ih]
      simp only [List.map_cons]
      rw [intercalate_cons_cons]
      simp

/-- C18 (as amended): for every event, `write` renders each field of the codec's field
map that the event does not define as `-` when the field has no enclosing characters,
and as its two enclosing characters with nothing between them when it has (`[]` for the
date and `""` for the request of the common log format); the fields are in declared
order, separated by single spaces and terminated by one newline. -/
theorem write_renders_undefined_fields (c : LogCodec) (e : Event ParameterValue) :
    c.write e =
      List.intercalate [SPACE]
        (c.m_field_map.map (fun f => writeField f (findValue e.entries f.log_term_ref))) ++
      [NEWLINE] ∧
    (∀ f ∈ c.m_field_map, findValue e.entries f.log_term_ref = none →
      f.log_delimiters = none →
        writeField f (findValue e.entries f.log_term_ref) = [DASH]) ∧
    (∀ f ∈ c.m_field_map, findValue e.entries f.log_term_ref = none →
      ∀ ds de : Char, f.log_delimiters = some (ds, de) →
        writeField f (findValue e.entries f.log_term_ref) = [ds, de]) := by
  refine ⟨?_, ?_, ?_⟩
  · rw [LogCodec.write, writeFields_eq_intercalate]
  · intro f _ hnone hd
    simp [hnone, writeField, hd]
  · intro f _ hnone ds de hd
    simp [hnone, writeField, hd]

theorem write_renders_undefined_fields_witness :
    commonLogCodec.write remotehostEvent = "192.168.0.1 - - [] \"\" - -\n".toList ∧
    combinedLogCodec.write extraFieldsEvent =
      "- - - [] \"\" - - \"http://www.atomiclabs.com/\" \"Mozilla/4.08 [en] (Win98; I ;Nav)\"\n".toList ∧
    commonLogCodec.write remotehostEvent =
      List.intercalate [SPACE]
        (commonLogCodec.m_field_map.map
          (fun f => writeField f (findValue remotehostEvent.entries f.log_term_ref))) ++
      [NEWLINE] :=
  ⟨by decide, by decide, (write_renders_undefined_fields commonLogCodec remotehostEvent).1⟩

/-- C18, counterexample: the common log codec writes an event that defines only
remotehost; the date and the request, which the event does not define, are not rendered
as `-` but as `[]` and `""`, as `checkCommonCodecWriteLogFormatJustOneField` expects. -/
theorem write_renders_undefined_enclosed_field_empty :
    findValue remotehostEvent.entries DATE_REF = none ∧
    findValue remotehostEvent.entries REQUEST_REF = none ∧
    commonLogCodec.write remotehostEvent = "192.168.0.1 - - [] \"\" - -\n".toList ∧
    commonLogCodec.write remotehostEvent ≠ "192.168.0.1 - - - - - -\n".toList ∧
    writeField { log_field := "date".toList, log_term_ref := DATE_REF,
                 log_term_type := TermType.datetime, log_delimiters := some ('[', ']') }
      (findValue remotehostEvent.entries DATE_REF) = ['[', ']'] := by
  decide

/-! ### Extended log format -/

theorem eventEqLoop_self {V : Type} [BEq V] (hrefl : ∀ v : V, (v == v) = true)
    (l : List (Entry V)) : eventEqLoop l l = true := by
  induction l with
  | nil => rfl
  | cons a l ih => rw [eventEqLoop_cons]; exact ⟨⟨rfl, hrefl a.value⟩, ih⟩

theorem eventEqLoop_swap {V : Type} [BEq V]
    (hsymm : ∀ v w : V, (v == w) = true → (w == v) = true) :
    ∀ l1 l2 : List (Entry V), eventEqLoop l1 l2 = true → eventEqLoop l2 l1 = true := by
  intro l1
  induction l1 with
  | nil =>
    intro l2 h
    cases l2 with
    | nil => rfl
    | cons b l2 => simp [eventEqLoop] at h
  | cons a l1 ih =>
    intro l2 h
    cases l2 with
    | nil => simp [eventEqLoop] at h
    | cons b l2 =>
      rw [eventEqLoop_cons] at h ⊢
      exact ⟨⟨h.1.1.symm, hsymm _ _ h.1.2⟩, ih l2 h.2⟩

theorem eventEqLoop_chain {V : Type} [BEq V]
    (htrans : ∀ u v w : V, (u == v) = true → (v == w) = true → (u == w) = true) :
    ∀ l1 l2 l3 : List (Entry V), eventEqLoop l1 l2 = true → eventEqLoop l2 l3 = true →
      eventEqLoop l1 l3 = true := by
  intro l1
  induction l1 with
  | nil =>
    intro l2 l3 h12 h23
    cases l2 with
    | nil => exact h23
    | cons b l2 => simp [eventEqLoop] at h12
  | cons a l1 ih =>
    intro l2 l3 h12 h23
    cases l2 with
    | nil => simp [eventEqLoop] at h12
    | cons b l2 =>
      cases l3 with
      | nil => simp [eventEqLoop] at h23
      | cons c l3 =>
        rw [eventEqLoop_cons] at h12 h23 ⊢
        exact ⟨⟨h12.1.1.trans h23.1.1, htrans _ _ _ h12.1.2 h23.1.2⟩, ih l2 l3 h12.2 h23.2⟩

/-- C30: the tests' `operator==` on events is an equivalence relation, given that `==`
on the stored values is one: every event equals itself, `a == b` implies `b == a`, and
`a == b` with `b == c` implies `a == c`. -/
theorem operatorEq_is_equivalence {V : Type} [BEq V]
    (hrefl : ∀ v : V, (v == v) = true)
    (hsymm : ∀ v w : V, (v == w) = true → (w == v) = true)
    (htrans : ∀ u v w : V, (u == v) = true → (v == w) = true → (u == w) = true) :
    (∀ a : Event V, a.operatorEq a = true) ∧
    (∀ a b : Event V, a.operatorEq b = true → b.operatorEq a = true) ∧
    (∀ a b c : Event V, a.operatorEq b = true → b.operatorEq c = true →
      a.operatorEq c = true) :=
  ⟨fun a => eventEqLoop_self hrefl a.entries,
   fun a b h => eventEqLoop_swap hsymm a.entries b.entries h,
   fun a b c h1 h2 => eventEqLoop_chain htrans a.entries b.entries c.entries h1 h2⟩

theorem operatorEq_is_equivalence_witness :
    (∀ v : ParameterValue, (v == v) = true) ∧
    allFieldsEvent.operatorEq allFieldsEvent = true ∧
    (bytesEvent.operatorEq allFieldsEvent = true → allFieldsEvent.operatorEq bytesEvent = true) ∧
    (bytesEvent.operatorEq bytesEvent = true → bytesEvent.operatorEq bytesEvent = true →
      bytesEvent.operatorEq bytesEvent = true) :=
  have h := @operatorEq_is_equivalence ParameterValue _
    (fun v => beq_self_eq_true v)
    (fun v w hvw => by rw [beq_iff_eq] at hvw ⊢; exact hvw.symm)
    (fun u v w huv hvw => by rw [beq_iff_eq] at huv hvw ⊢; exact huv.trans hvw)
  ⟨fun v => beq_self_eq_true v, h.1 allFieldsEvent, h.2.1 bytesEvent allFieldsEvent,
    h.2.2 bytesEvent bytesEvent bytesEvent⟩

/-! ### TCP server: stopping and starting again -/

theorem TCPServer.call_keeps_stopped (s : TCPServer) (call : ServerCall)
    (h : s.m_is_listening = false ∧ s.m_conn_pool = ∅) :
    (s.call call).m_is_listening = false ∧ (s.call call).m_conn_pool = ∅ := by
  obtain ⟨hl, hp⟩ := h
  cases call with
  | listen => simp [TCPServer.call, TCPServer.listen, hl, hp]
  | handleConnection conn accept_error =>
    cases accept_error <;>
      simp [TCPServer.call, TCPServer.handleConnection, TCPServer.finishConnection, hl, hp]
  | finishConnection conn => simp [TCPServer.call, TCPServer.finishConnection, hl, hp]
  | stop => simp [TCPServer.call, TCPServer.stop, hl, hp]
  | handleStopRequest => simp [TCPServer.call, TCPServer.handleStopRequest, hl, hp]

theorem TCPServer.calls_keep_stopped (calls : List ServerCall) (s : TCPServer)
    (h : s.m_is_listening = false ∧ s.m_conn_pool = ∅) :
    (calls.foldl TCPServer.call s).m_is_listening = false ∧
    (calls.foldl TCPServer.call s).m_conn_pool = ∅ := by
  induction calls generalizing s with
  | nil => exact h
  | cons call rest ih => exact ih (s.call call) (TCPServer.call_keeps_stopped s call h)

theorem TCPServer.step_pool_empty_when_not_listening (s : TCPServer) (step : ServerStep)
    (hpool : s.m_is_listening = false → s.m_conn_pool = ∅) :
    (s.step step).m_is_listening = false → (s.step step).m_conn_pool = ∅ := by
  have hhandle : ∀ (t : TCPServer) (conn : TCPConnectionPtr) (accept_error : Bool),
      (t.m_is_listening = false → t.m_conn_pool = ∅) →
      (t.handleConnection conn accept_error).m_is_listening = false →
      (t.handleConnection conn accept_error).m_conn_pool = ∅ := by
    intro t conn accept_error ht
    cases hl : t.m_is_listening <;> cases accept_error <;>
      simp [TCPServer.handleConnection, TCPServer.finishConnection, TCPServer.listen, hl, ht]
  have hstop : ∀ t : TCPServer, (t.m_is_listening = false → t.m_conn_pool = ∅) →
      t.handleStopRequest.m_is_listening = false → t.handleStopRequest.m_conn_pool = ∅ := by
    intro t ht
    cases hl : t.m_is_listening <;> simp [TCPServer.handleStopRequest, hl, ht]
  cases step with
  | start =>
    cases hl : s.m_is_listening <;> simp [TCPServer.step, TCPServer.start, TCPServer.listen, hl, hpool]
  | stop =>
    cases hl : s.m_is_listening <;> simp [TCPServer.step, TCPServer.stop, hl, hpool]
  | poll =>
    simp only [TCPServer.step, TCPServer.poll]
    cases hq : s.io_service_queue with
    | nil => exact hpool
    | cons handler rest =>
      cases handler with
      | handleStopRequest => exact hstop { s with io_service_queue := rest } hpool
      | handleConnection conn accept_error =>
        exact hhandle { s with io_service_queue := rest } conn accept_error hpool
  | acceptCompleted conn accept_error =>
    simp only [TCPServer.step, TCPServer.acceptCompleted]
    split
    · exact hhandle _ conn accept_error hpool
    · exact hpool
  | finishConnection conn =>
    cases hl : s.m_is_listening <;> simp [TCPServer.step, TCPServer.finishConnection, hl, hpool]

/-- In every state reached from a new server, by any steps whatever, the pool is empty
whenever the server is not listening. -/
theorem TCPServer.run_pool_empty_when_not_listening (port : Nat) (steps : List ServerStep) :
    (TCPServer.run port steps).m_is_listening = false →
    (TCPServer.run port steps).m_conn_pool = ∅ := by
  have h : ∀ (l : List ServerStep) (s : TCPServer),
      (s.m_is_listening = false → s.m_conn_pool = ∅) →
      (l.foldl TCPServer.step s).m_is_listening = false →
      (l.foldl TCPServer.step s).m_conn_pool = ∅ := by
    intro l
    induction l with
    | nil => intro s hs; exact hs
    | cons step rest ih =>
      intro s hs
      exact ih (s.step step) (TCPServer.step_pool_empty_when_not_listening s step hs)
  exact h steps (TCPServer.create port) (fun _ => rfl)

/-- C24: once the stop task `handleStopRequest` has run on a server (one whose pool is
empty whenever it is not listening, as in every reachable state), the pool is empty and
the server is not listening, and both stay so under every sequence of `listen`,
`handleConnection`, `finishConnection`, `stop` and `handleStopRequest` calls (no call
of `start()` among them). -/
theorem stopped_server_stays_stopped (s : TCPServer) (calls : List ServerCall)
    (hpool : s.m_is_listening = false → s.m_conn_pool = ∅) :
    s.handleStopRequest.m_is_listening = false ∧
    s.handleStopRequest.m_conn_pool = ∅ ∧
    (calls.foldl TCPServer.call s.handleStopRequest).m_is_listening = false ∧
    (calls.foldl TCPServer.call s.handleStopRequest).m_conn_pool = ∅ := by
  have h0 : s.handleStopRequest.m_is_listening = false ∧ s.handleStopRequest.m_conn_pool = ∅ := by
    cases hl : s.m_is_listening <;> simp [TCPServer.handleStopRequest, hl, hpool]
  exact ⟨h0.1, h0.2, TCPServer.calls_keep_stopped calls _ h0⟩

theorem stopped_server_stays_stopped_witness :
    (TCPServer.create 8080).start.m_is_listening = true ∧
    (TCPServer.create 8080).start.m_conn_pool = {0} ∧
    ([ServerCall.listen, ServerCall.handleConnection 0 true, ServerCall.handleConnection 0 false,
      ServerCall.finishConnection 0, ServerCall.stop, ServerCall.handleStopRequest].foldl
        TCPServer.call (TCPServer.create 8080).start.handleStopRequest).m_is_listening = false ∧
    ([ServerCall.listen, ServerCall.handleConnection 0 true, ServerCall.handleConnection 0 false,
      ServerCall.finishConnection 0, ServerCall.stop, ServerCall.handleStopRequest].foldl
        TCPServer.call (TCPServer.create 8080).start.handleStopRequest).m_conn_pool = ∅ :=
  have h := stopped_server_stays_stopped (TCPServer.create 8080).start
    [ServerCall.listen, ServerCall.handleConnection 0 true, ServerCall.handleConnection 0 false,
      ServerCall.finishConnection 0, ServerCall.stop, ServerCall.handleStopRequest]
    (fun hl => absurd hl (by decide))
  ⟨by decide, by decide, h.2.2.1, h.2.2.2⟩

/-- C25: `start()` on a server that is already listening is a no-op: the whole state,
the listening flag, the pool and the armed accepts included, is unchanged; so `start()`
followed by `start()` leaves the same state as a single `start()`. -/
theorem start_on_listening_server_is_noop (s : TCPServer) :
    (s.m_is_listening = true → s.start = s) ∧
    (s.m_is_listening = true →
      s.start.m_is_listening = s.m_is_listening ∧
      s.start.m_conn_pool = s.m_conn_pool ∧
      s.start.m_tcp_acceptor.pending_accepts = s.m_tcp_acceptor.pending_accepts) ∧
    s.start.start = s.start := by
  have hnoop : ∀ t : TCPServer, t.m_is_listening = true → t.start = t := by
    intro t ht
    simp [TCPServer.start, ht]
  refine ⟨hnoop s, ?_, ?_⟩
  · intro h
    rw [hnoop s h]
    exact ⟨rfl, rfl, rfl⟩
  · apply hnoop
    cases hl : s.m_is_listening with
    | true => rw [hnoop s hl]; exact hl
    | false => simp [TCPServer.start, TCPServer.listen, hl]

theorem start_on_listening_server_is_noop_witness :
    (TCPServer.create 8080).start.m_is_listening = true ∧
    (TCPServer.create 8080).start.start = (TCPServer.create 8080).start ∧
    (TCPServer.create 8080).start.start.m_tcp_acceptor.pending_accepts = [0] :=
  have h := start_on_listening_server_is_noop (TCPServer.create 8080)
  ⟨by decide, h.2.2, by rw [h.2.2]; decide⟩

/-- C23, the defect: on a listening server whose one armed accept is on `conn`, the accept
completes with an error. The server is still listening, yet no accept is armed and no
pooled connection is awaiting one: `handleConnection` has not called `listen()`
again. -/
theorem failed_accept_leaves_no_armed_accept (s : TCPServer) (conn : TCPConnectionPtr)
    (hlistening : s.m_is_listening = true)
    (hpending : s.m_tcp_acceptor.pending_accepts = [conn]) :
    (s.acceptCompleted conn true).m_is_listening = true ∧
    (s.acceptCompleted conn true).m_tcp_acceptor.pending_accepts = [] ∧
    (s.acceptCompleted conn true).awaitingAccept = ∅ ∧
    (s.acceptCompleted conn true).awaitingAccept.card ≠ 1 := by
  have hstate : (s.acceptCompleted conn true).m_is_listening = true ∧
      (s.acceptCompleted conn true).m_tcp_acceptor.pending_accepts = [] := by
    simp [TCPServer.acceptCompleted, TCPServer.handleConnection, TCPServer.finishConnection,
      hpending, hlistening]
  have hnone : (s.acceptCompleted conn true).awaitingAccept = ∅ := by
    unfold TCPServer.awaitingAccept
    rw [hstate.2]
    simp
  refine ⟨hstate.1, hstate.2, hnone, ?_⟩
  rw [hnone]
  simp

/-- C23, the failing input: a server is started, so connection 0 is pooled and awaits
the armed accept, and that accept completes with an error. The state reached is
listening with no connection awaiting an accept. -/
theorem failed_accept_leaves_no_armed_accept_witness :
    (TCPServer.run 8080 [ServerStep.start]).m_is_listening = true ∧
    (TCPServer.run 8080 [ServerStep.start]).awaitingAccept = {0} ∧
    (TCPServer.run 8080 [ServerStep.start,
      ServerStep.acceptCompleted 0 true]).m_is_listening = true ∧
    (TCPServer.run 8080 [ServerStep.start,
      ServerStep.acceptCompleted 0 true]).awaitingAccept = ∅ ∧
    (TCPServer.run 8080 [ServerStep.start,
      ServerStep.acceptCompleted 0 true]).awaitingAccept.card ≠ 1 :=
  have h := failed_accept_leaves_no_armed_accept (TCPServer.run 8080 [ServerStep.start]) 0
    (by decide) (by decide)
  ⟨by decide, by decide, h.1, h.2.2.1, h.2.2.2⟩

/-! ### Hello service -/

/-- C21 (as amended): for every request, `HelloService` writes a response whose body is
`<html><body>Hello World!</body></html>` followed by two CRLF sequences, sends it exactly
once, and registers the connection's `finish` as the handler run when the send
completes. -/
theorem hello_service_response (http_request : HTTPRequest) (tcp_conn : TCPConnectionPtr) :
    (HelloService.handle http_request tcp_conn).body =
      "<html><body>Hello World!</body></html>".toList ++ (STRING_CRLF ++ STRING_CRLF) ∧
    (HelloService.handle http_request tcp_conn).content =
      ["<html><body>Hello World!</body></html>".toList, STRING_CRLF, STRING_CRLF] ∧
    (HelloService.handle http_request tcp_conn).send_calls = 1 ∧
    (HelloService.handle http_request tcp_conn).finished_handler =
      FinishedHandler.connectionFinish tcp_conn ∧
    (HelloService.handle http_request tcp_conn).tcp_conn = tcp_conn := by
  refine ⟨?_, rfl, rfl, rfl, rfl⟩
  simp [HelloService.handle, HTTPResponseWriter.body, HTTPResponseWriter.send,
    HTTPResponseWriter.writeNoCopy, HTTPResponseWriter.create, HELLO_HTML]

/-- C21, counterexample: the body of the response to a `GET /hello` is not exactly
`<html><body>Hello World!</body></html>`: the service writes two CRLF sequences after
it, so the body is four characters longer. -/
theorem hello_service_body_has_trailing_crlf :
    (HelloService.handle { method := "GET", resource := "/hello" } 7).body ≠
      "<html><body>Hello World!</body></html>".toList ∧
    (HelloService.handle { method := "GET", resource := "/hello" } 7).body.length =
      "<html><body>Hello World!</body></html>".toList.length + 4 ∧
    (HelloService.handle { method := "GET", resource := "/hello" } 7).body =
      "<html><body>Hello World!</body></html>\r\n\r\n".toList := by
  decide

/-! ### Python reactor: starting and stopping -/

theorem PythonReactor.compilePythonSource_source (r : PythonReactor) (world : PythonWorld) :
    (r.compilePythonSource world).reactor.m_source = r.m_source ∧
    (r.compilePythonSource world).reactor.m_source_file = r.m_source_file ∧
    (r.compilePythonSource world).reactor.m_is_running = r.m_is_running ∧
    (r.compilePythonSource world).reactor.actions = r.actions ∧
    ((r.compilePythonSource world).reactor.m_byte_code = none ∨
     (r.compilePythonSource world).reactor.m_byte_code =
       (world.compile r.m_source r.m_source_file).retval) := by
  unfold PythonReactor.compilePythonSource
  simp only [PythonReactor.resetPythonSymbols]
  split
  · split
    · exact ⟨rfl, rfl, rfl, rfl, Or.inl rfl⟩
    · rename_i byte_code h
      exact ⟨rfl, rfl, rfl, rfl, Or.inr h.symm⟩
  · exact ⟨rfl, rfl, rfl, rfl, Or.inl rfl⟩

theorem PythonReactor.initPythonModule_source (r : PythonReactor) (world : PythonWorld) :
    (r.initPythonModule world).reactor.m_source = r.m_source ∧
    (r.initPythonModule world).reactor.m_source_file = r.m_source_file ∧
    (r.initPythonModule world).reactor.m_is_running = r.m_is_running ∧
    (r.initPythonModule world).reactor.actions = r.actions ∧
    ((r.initPythonModule world).reactor.m_byte_code = none ∨
     (r.initPythonModule world).reactor.m_byte_code = r.m_byte_code) := by
  unfold PythonReactor.initPythonModule
  cases hb : r.m_byte_code with
  | none => exact ⟨rfl, rfl, rfl, rfl, Or.inl hb⟩
  | some byte_code =>
    cases he : (world.exec_module byte_code).retval with
    | none => simp [he]
    | some module_ptr =>
      cases h1 : findPythonFunction world module_ptr START_FUNCTION_NAME with
      | error ex => simp [he, h1, hb]
      | ok start_func =>
        cases h2 : findPythonFunction world module_ptr STOP_FUNCTION_NAME with
        | error ex => simp [he, h1, h2, hb]
        | ok stop_func =>
          cases h3 : findPythonFunction world module_ptr PROCESS_FUNCTION_NAME with
          | error ex => simp [he, h1, h2, h3, hb]
          | ok process_func => simp [he, h1, h2, h3, hb]

theorem PythonReactor.reloadSource_of_changed (r : PythonReactor) (world : PythonWorld)
    (src_code : String) (hfile : r.m_source_file ≠ "")
    (hread : world.read_file r.m_source_file = SourceFile.content src_code)
    (hchanged : src_code ≠ r.m_source) :
    r.reloadSource world = r.compilePythonSource world := by
  unfold PythonReactor.reloadSource
  rw [if_pos hfile]
  simp only [PythonReactor.getSourceCodeFromFile, hread]
  rw [if_pos hchanged]

/-- C22: when `start()` runs on a stopped reactor configured with a source file whose
current content `src_code` differs from the stored source, the file's content is only
compared: `compilePythonSource()` is called while `m_source` still holds the stored
source, and `m_source` is the same after `start()`. The byte code that is run as the
module is therefore compiled from the stored source, not from the file's current
content. -/
theorem start_compiles_stored_source (r : PythonReactor) (world : PythonWorld)
    (src_code : String) (hstopped : r.m_is_running = false) (hfile : r.m_source_file ≠ "")
    (hread : world.read_file r.m_source_file = SourceFile.content src_code)
    (hchanged : src_code ≠ r.m_source) :
    r.getSourceCodeFromFile world = Except.ok src_code ∧
    r.reloadSource world = r.compilePythonSource world ∧
    (r.start world).reactor.m_source = r.m_source ∧
    (r.start world).reactor.m_source ≠ src_code ∧
    ((r.start world).reactor.m_byte_code = none ∨
     (r.start world).reactor.m_byte_code =
       (world.compile r.m_source r.m_source_file).retval) := by
  have hreload := PythonReactor.reloadSource_of_changed r world src_code hfile hread hchanged
  have hc := PythonReactor.compilePythonSource_source r world
  have hi := PythonReactor.initPythonModule_source (r.compilePythonSource world).reactor world
  have hsrc : (r.start world).reactor.m_source = r.m_source ∧
      ((r.start world).reactor.m_byte_code = none ∨
       (r.start world).reactor.m_byte_code =
         (world.compile r.m_source r.m_source_file).retval) := by
    unfold PythonReactor.start
    simp only [hstopped, Bool.not_false, if_true, hreload]
    have hb : (((r.compilePythonSource world).reactor.initPythonModule world).reactor.m_byte_code
          = none ∨
        ((r.compilePythonSource world).reactor.initPythonModule world).reactor.m_byte_code =
          (world.compile r.m_source r.m_source_file).retval) := by
      rcases hi.2.2.2.2 with h | h
      · exact Or.inl h
      · rw [h]; exact hc.2.2.2.2
    split
    · exact ⟨hc.1, hc.2.2.2.2⟩
    · split
      · exact ⟨hi.1.trans hc.1, hb⟩
      · split
        · split
          · exact ⟨hi.1.trans hc.1, hb⟩
          · exact ⟨hi.1.trans hc.1, hb⟩
        · exact ⟨hi.1.trans hc.1, hb⟩
  refine ⟨?_, hreload, hsrc.1, ?_, hsrc.2⟩
  · simp only [PythonReactor.getSourceCodeFromFile, hread]
  · rw [hsrc.1]; exact fun h => hchanged h.symm

/-- C22, the failing input: a reactor is configured with the file `reactor.py`, which
holds `def start(): pass` (byte code 10); the file is then changed to
`def start(): raise` (byte code 30) and the stopped reactor is started. The byte code
run as the module is 10, that of the old content, the stored source is still the old
content, and the module's `start` function is the old one (12), which returns. -/
theorem start_compiles_stored_source_witness :
    ((PythonReactor.construct PythonStatics.initial).1.setConfig none (some "reactor.py")
      (exampleWorld "def start(): pass")).reactor.m_source = "def start(): pass" ∧
    ((exampleWorld "def start(): raise").compile "def start(): raise" "reactor.py").retval
      = some 30 ∧
    ((((PythonReactor.construct PythonStatics.initial).1.setConfig none (some "reactor.py")
      (exampleWorld "def start(): pass")).reactor.start
        (exampleWorld "def start(): raise")).thrown = none) ∧
    ((((PythonReactor.construct PythonStatics.initial).1.setConfig none (some "reactor.py")
      (exampleWorld "def start(): pass")).reactor.start
        (exampleWorld "def start(): raise")).reactor.m_byte_code = some 10) ∧
    ((((PythonReactor.construct PythonStatics.initial).1.setConfig none (some "reactor.py")
      (exampleWorld "def start(): pass")).reactor.start
        (exampleWorld "def start(): raise")).reactor.m_start_func = some 12) ∧
    ((((PythonReactor.construct PythonStatics.initial).1.setConfig none (some "reactor.py")
      (exampleWorld "def start(): pass")).reactor.start
        (exampleWorld "def start(): raise")).reactor.m_source = "def start(): pass") ∧
    ((((PythonReactor.construct PythonStatics.initial).1.setConfig none (some "reactor.py")
      (exampleWorld "def start(): pass")).reactor.start
        (exampleWorld "def start(): raise")).reactor.m_source ≠ "def start(): raise") :=
  have h := start_compiles_stored_source
    ((PythonReactor.construct PythonStatics.initial).1.setConfig none (some "reactor.py")
      (exampleWorld "def start(): pass")).reactor
    (exampleWorld "def start(): raise") "def start(): raise"
    (by decide) (by decide) (by decide) (by decide)
  ⟨by decide, by decide, by decide, by decide, by decide, h.2.2.1.trans (by decide), h.2.2.2.1⟩

theorem findPythonFunction_of_callable (world : PythonWorld) (module_ptr : PyObject)
    (func_name : String)
    (hcallable : ∀ f, world.get_attr module_ptr func_name = some f → world.callable f = true) :
    findPythonFunction world module_ptr func_name =
      Except.ok (world.get_attr module_ptr func_name) := by
  unfold findPythonFunction
  cases h : world.get_attr module_ptr func_name with
  | none => rfl
  | some func_ptr => simp [hcallable func_ptr h]

theorem PythonReactor.initPythonModule_of_callable (r : PythonReactor) (world : PythonWorld)
    (byte_code module_ptr : PyObject) (hcode : r.m_byte_code = some byte_code)
    (hmodule : (world.exec_module byte_code).retval = some module_ptr)
    (hstart : ∀ f, world.get_attr module_ptr START_FUNCTION_NAME = some f →
      world.callable f = true)
    (hstop : ∀ f, world.get_attr module_ptr STOP_FUNCTION_NAME = some f →
      world.callable f = true)
    (hprocess : ∀ f, world.get_attr module_ptr PROCESS_FUNCTION_NAME = some f →
      world.callable f = true) :
    r.initPythonModule world =
      { thrown := none,
        reactor := { r with m_module := some module_ptr,
                            m_start_func := world.get_attr module_ptr START_FUNCTION_NAME,
                            m_stop_func := world.get_attr module_ptr STOP_FUNCTION_NAME,
                            m_process_func := world.get_attr module_ptr PROCESS_FUNCTION_NAME } } := by
  unfold PythonReactor.initPythonModule
  simp only [hcode, hmodule,
    findPythonFunction_of_callable world module_ptr START_FUNCTION_NAME hstart,
    findPythonFunction_of_callable world module_ptr STOP_FUNCTION_NAME hstop,
    findPythonFunction_of_callable world module_ptr PROCESS_FUNCTION_NAME hprocess]

theorem PythonReactor.reloadSource_actions (r : PythonReactor) (world : PythonWorld) :
    (r.reloadSource world).reactor.actions = r.actions ∧
    (r.reloadSource world).reactor.m_is_running = r.m_is_running := by
  unfold PythonReactor.reloadSource
  have hc := PythonReactor.compilePythonSource_source r world
  split
  · split
    · exact ⟨rfl, rfl⟩
    · split
      · exact ⟨hc.2.2.2.1, hc.2.2.1⟩
      · exact ⟨rfl, rfl⟩
  · exact ⟨rfl, rfl⟩

/-- C26: `start()` runs on a stopped reactor; the source is up to date or recompiles,
the byte code imports as a module, the module has a callable `start`, and its `stop`
and `process` attributes, where it has them, are callable (nothing is asked of its other
attributes). When the `start` function raises, `start()` throws
`PythonRuntimeException` with the text of the Python error, and leaves the reactor
marked running, with the module bound and the start, stop and process functions bound
to what the module defines: the running flag was set before the function was called. -/
theorem start_func_raising_leaves_reactor_running (r : PythonReactor) (world : PythonWorld)
    (byte_code module_ptr start_func : PyObject)
    (hstopped : r.m_is_running = false)
    (hreload : (r.reloadSource world).thrown = none)
    (hcode : (r.reloadSource world).reactor.m_byte_code = some byte_code)
    (hmodule : (world.exec_module byte_code).retval = some module_ptr)
    (hstart : world.get_attr module_ptr START_FUNCTION_NAME = some start_func)
    (hstart_callable : world.callable start_func = true)
    (hstop_callable : ∀ f, world.get_attr module_ptr STOP_FUNCTION_NAME = some f →
      world.callable f = true)
    (hprocess_callable : ∀ f, world.get_attr module_ptr PROCESS_FUNCTION_NAME = some f →
      world.callable f = true)
    (hraise : (world.call start_func none).raised = true) :
    (r.start world).thrown =
      some (PythonException.PythonRuntimeException
        (getPythonError (world.call start_func none))) ∧
    (r.start world).reactor.m_is_running = true ∧
    (r.start world).reactor.m_module = some module_ptr ∧
    (r.start world).reactor.m_start_func = some start_func ∧
    (r.start world).reactor.m_stop_func = world.get_attr module_ptr STOP_FUNCTION_NAME ∧
    (r.start world).reactor.m_process_func = world.get_attr module_ptr PROCESS_FUNCTION_NAME ∧
    (r.start world).reactor.m_byte_code = some byte_code ∧
    (r.start world).reactor.actions =
      r.actions ++ [ReactorAction.callPython start_func none] := by
  have hinit := PythonReactor.initPythonModule_of_callable (r.reloadSource world).reactor world
    byte_code module_ptr hcode hmodule
    (fun f hf => by rw [hstart] at hf; injection hf with hf; rw [← hf]; exact hstart_callable)
    hstop_callable hprocess_callable
  have hact := (PythonReactor.reloadSource_actions r world).1
  unfold PythonReactor.start
  simp [hstopped, hreload, hinit, hstart, hraise, hact, hcode]

theorem start_func_raising_leaves_reactor_running_witness :
    ((PythonReactor.construct PythonStatics.initial).1.setConfig (some "def start(): raise")
      none (exampleWorld "")).reactor.m_is_running = false ∧
    ((exampleWorld "").call 32 none).raised = true ∧
    (((PythonReactor.construct PythonStatics.initial).1.setConfig (some "def start(): raise")
      none (exampleWorld "")).reactor.start (exampleWorld "")).thrown =
        some (PythonException.PythonRuntimeException "RuntimeError") ∧
    (((PythonReactor.construct PythonStatics.initial).1.setConfig (some "def start(): raise")
      none (exampleWorld "")).reactor.start (exampleWorld "")).reactor.m_is_running = true ∧
    (((PythonReactor.construct PythonStatics.initial).1.setConfig (some "def start(): raise")
      none (exampleWorld "")).reactor.start (exampleWorld "")).reactor.m_module = some 31 ∧
    (((PythonReactor.construct PythonStatics.initial).1.setConfig (some "def start(): raise")
      none (exampleWorld "")).reactor.start (exampleWorld "")).reactor.m_start_func = some 32 ∧
    (exampleWorld "").get_attr 31 "__name__" = some 40 ∧
    (exampleWorld "").callable 40 = false :=
  have h := start_func_raising_leaves_reactor_running
    ((PythonReactor.construct PythonStatics.initial).1.setConfig (some "def start(): raise")
      none (exampleWorld "")).reactor
    (exampleWorld "") 30 31 32 (by decide) (by decide) (by decide) (by decide)
    (by decide) (by decide)
    (fun f hf => by
      have hnone : (exampleWorld "").get_attr 31 STOP_FUNCTION_NAME = none := by decide
      rw [hnone] at hf
      cases hf)
    (fun f hf => by
      have hnone : (exampleWorld "").get_attr 31 PROCESS_FUNCTION_NAME = none := by decide
      rw [hnone] at hf
      cases hf)
    (by decide)
  ⟨by decide, by decide, h.1, h.2.1, h.2.2.1, h.2.2.2.1, by decide, by decide⟩

/-- C27: `stop()` runs on a running reactor. When the module's `stop` function raises,
`stop()` throws `PythonRuntimeException` with the text of the Python error and every
member of the reactor is as before (only the call of the Python function is recorded):
it is still running and the module, the three functions and the byte code are as they
were. When `stop()` completes normally the reactor is not running, the module and the
three functions are null, and the byte code is kept. -/
theorem stop_func_raising_leaves_state (r : PythonReactor) (world : PythonWorld)
    (hrunning : r.m_is_running = true) :
    (∀ stop_func, r.m_stop_func = some stop_func →
      (world.call stop_func none).raised = true →
        (r.stop world).thrown =
          some (PythonException.PythonRuntimeException
            (getPythonError (world.call stop_func none))) ∧
        (r.stop world).reactor =
          { r with actions := r.actions ++ [ReactorAction.callPython stop_func none] } ∧
        (r.stop world).reactor.m_is_running = true ∧
        (r.stop world).reactor.m_module = r.m_module ∧
        (r.stop world).reactor.m_start_func = r.m_start_func ∧
        (r.stop world).reactor.m_stop_func = r.m_stop_func ∧
        (r.stop world).reactor.m_process_func = r.m_process_func ∧
        (r.stop world).reactor.m_byte_code = r.m_byte_code) ∧
    ((r.stop world).thrown = none →
        (r.stop world).reactor.m_is_running = false ∧
        (r.stop world).reactor.m_module = none ∧
        (r.stop world).reactor.m_start_func = none ∧
        (r.stop world).reactor.m_stop_func = none ∧
        (r.stop world).reactor.m_process_func = none ∧
        (r.stop world).reactor.m_byte_code = r.m_byte_code) := by
  constructor
  · intro stop_func hstop hraise
    unfold PythonReactor.stop
    simp [hrunning, hstop, hraise]
  · unfold PythonReactor.stop
    simp only [hrunning, if_true]
    cases hstop : r.m_stop_func with
    | none => intro _; exact ⟨rfl, rfl, rfl, rfl, rfl, rfl⟩
    | some stop_func =>
      cases hraise : (world.call stop_func none).raised with
      | true => simp [hraise]
      | false => simp [hraise, PythonReactor.releaseModule]

theorem stop_func_raising_leaves_state_witness :
    (((PythonReactor.construct PythonStatics.initial).1.setConfig (some "def stop(): raise")
      none (exampleWorld "")).reactor.start (exampleWorld "")).reactor.m_is_running = true ∧
    ((((PythonReactor.construct PythonStatics.initial).1.setConfig (some "def stop(): raise")
      none (exampleWorld "")).reactor.start (exampleWorld "")).reactor.stop
        (exampleWorld "")).thrown =
          some (PythonException.PythonRuntimeException "RuntimeError") ∧
    ((((PythonReactor.construct PythonStatics.initial).1.setConfig (some "def stop(): raise")
      none (exampleWorld "")).reactor.start (exampleWorld "")).reactor.stop
        (exampleWorld "")).reactor.m_is_running = true ∧
    ((((PythonReactor.construct PythonStatics.initial).1.setConfig (some "def stop(): raise")
      none (exampleWorld "")).reactor.start (exampleWorld "")).reactor.stop
        (exampleWorld "")).reactor.m_module = some 21 ∧
    ((((PythonReactor.construct PythonStatics.initial).1.setConfig (some "def stop(): raise")
      none (exampleWorld "")).reactor.start (exampleWorld "")).reactor.stop
        (exampleWorld "")).reactor.m_stop_func = some 22 :=
  have h := (stop_func_raising_leaves_state
    (((PythonReactor.construct PythonStatics.initial).1.setConfig (some "def stop(): raise")
      none (exampleWorld "")).reactor.start (exampleWorld "")).reactor
    (exampleWorld "") (by decide)).1 22 (by decide) (by decide)
  ⟨by decide, h.1, h.2.2.1, h.2.2.2.1.trans (by decide), h.2.2.2.2.2.1.trans (by decide)⟩

/-- C28: `start()` on a running reactor and `stop()` on a stopped reactor throw nothing
and leave the reactor as it was, the record of Python calls included, whatever the
interpreter would answer; so a second `start()` right after one that succeeded, and a
second `stop()` right after one that succeeded, change nothing. -/
theorem start_and_stop_are_idempotent (r : PythonReactor) (world world_2 : PythonWorld) :
    (r.m_is_running = true → r.start world = { thrown := none, reactor := r }) ∧
    (r.m_is_running = false → r.stop world = { thrown := none, reactor := r }) ∧
    ((r.start world).thrown = none →
      (r.start world).reactor.start world_2 =
        { thrown := none, reactor := (r.start world).reactor }) ∧
    ((r.stop world).thrown = none →
      (r.stop world).reactor.stop world_2 =
        { thrown := none, reactor := (r.stop world).reactor }) := by
  have hstart : ∀ (t : PythonReactor) (w : PythonWorld), t.m_is_running = true →
      t.start w = { thrown := none, reactor := t } := by
    intro t w ht
    simp [PythonReactor.start, ht]
  have hstop : ∀ (t : PythonReactor) (w : PythonWorld), t.m_is_running = false →
      t.stop w = { thrown := none, reactor := t } := by
    intro t w ht
    simp [PythonReactor.stop, ht]
  refine ⟨hstart r world, hstop r world, ?_, ?_⟩
  · intro hok
    apply hstart
    revert hok
    unfold PythonReactor.start
    cases hrun : r.m_is_running with
    | true => simp [hrun]
    | false =>
      simp only [Bool.not_false, if_true]
      split
      · rename_i ex h; intro hok; rw [h] at hok; exact absurd hok (by simp)
      · split
        · rename_i ex h; intro hok; rw [h] at hok; exact absurd hok (by simp)
        · split
          · split
            · intro hok; exact absurd hok (by simp)
            · intro _; rfl
          · intro _; rfl
  · intro hok
    apply hstop
    revert hok
    unfold PythonReactor.stop
    cases hrun : r.m_is_running with
    | false => simp [hrun]
    | true =>
      simp only [if_true]
      split
      · split
        · intro hok; exact absurd hok (by simp)
        · intro _; rfl
      · intro _; rfl

/-! ### Python reactor: the instance counter -/

theorem PythonReactor.stop_of_quiet (r : PythonReactor) (world : PythonWorld)
    (hquiet : ∀ f args, (world.call f args).raised = false) :
    (r.stop world).thrown = none := by
  unfold PythonReactor.stop
  split
  · split
    · simp [hquiet]
    · rfl
  · rfl

theorem PythonProgram.step_consistent (world : PythonWorld)
    (hquiet : ∀ f args, (world.call f args).raised = false)
    (p : PythonProgram) (step : ProgramStep) (hp : p.Consistent)
    (hbound : p.live.length + 1 < UINT32_RANGE) :
    (p.step world step).Consistent ∧ (p.step world step).live.length ≤ p.live.length + 1 := by
  obtain ⟨hnum, hzero, hpos⟩ := hp
  cases step with
  | construct =>
    simp only [PythonProgram.step, PythonReactor.construct, PythonProgram.Consistent]
    have hmod : (p.statics.m_init_num + 1) % UINT32_RANGE = p.live.length + 1 := by
      rw [hnum]; exact Nat.mod_eq_of_lt hbound
    rw [hmod]
    by_cases hlen : p.live.length = 0
    · obtain ⟨h1, h2, h3⟩ := hzero hlen
      simp [hlen, h3]
    · have hlt : 0 < p.live.length := Nat.pos_of_ne_zero hlen
      obtain ⟨h1, h2, h3⟩ := hpos hlt
      simp [hlen, h1, h2, h3]
  | setConfig index python_source filename =>
    simp only [PythonProgram.step]
    cases hget : p.live.get? index with
    | none => exact ⟨⟨hnum, hzero, hpos⟩, Nat.le_succ _⟩
    | some r =>
      simp only [PythonProgram.Consistent, List.length_set]
      exact ⟨⟨hnum, hzero, hpos⟩, Nat.le_succ _⟩
  | start index =>
    simp only [PythonProgram.step]
    cases hget : p.live.get? index with
    | none => exact ⟨⟨hnum, hzero, hpos⟩, Nat.le_succ _⟩
    | some r =>
      simp only [PythonProgram.Consistent, List.length_set]
      exact ⟨⟨hnum, hzero, hpos⟩, Nat.le_succ _⟩
  | stop index =>
    simp only [PythonProgram.step]
    cases hget : p.live.get? index with
    | none => exact ⟨⟨hnum, hzero, hpos⟩, Nat.le_succ _⟩
    | some r =>
      simp only [PythonProgram.Consistent, List.length_set]
      exact ⟨⟨hnum, hzero, hpos⟩, Nat.le_succ _⟩
  | destroy index =>
    simp only [PythonProgram.step]
    cases hget : p.live.get? index with
    | none => exact ⟨⟨hnum, hzero, hpos⟩, Nat.le_succ _⟩
    | some r =>
      have hidx : index < p.live.length := by
        rcases Nat.lt_or_ge index p.live.length with h | h
        · exact h
        · rw [List.get?_eq_none.mpr h] at hget; exact absurd hget (by simp)
      have hlt : 0 < p.live.length := Nat.lt_of_le_of_lt (Nat.zero_le _) hidx
      obtain ⟨h1, h2, h3⟩ := hpos hlt
      have hlen : (p.live.eraseIdx index).length = p.live.length - 1 :=
        List.length_eraseIdx_of_lt hidx
      have hmod : (p.statics.m_init_num + UINT32_RANGE - 1) % UINT32_RANGE
          = p.live.length - 1 := by
        rw [hnum]
        have : p.live.length + UINT32_RANGE - 1 = (p.live.length - 1) + UINT32_RANGE := by omega
        rw [this, Nat.add_mod_right]
        exact Nat.mod_eq_of_lt (by omega)
      simp only [PythonProgram.Consistent, PythonReactor.destruct,
        PythonReactor.stop_of_quiet r world hquiet, hmod, hlen]
      by_cases hone : p.live.length - 1 = 0
      · simp [hone, h3]
      · have hpos2 : 0 < p.live.length - 1 := Nat.pos_of_ne_zero hone
        simp [hone, h1, h2, h3]
        omega

theorem PythonProgram.steps_consistent (world : PythonWorld)
    (hquiet : ∀ f args, (world.call f args).raised = false)
    (steps : List ProgramStep) (p : PythonProgram) (hp : p.Consistent)
    (hbound : p.live.length + steps.length < UINT32_RANGE) :
    (steps.foldl (PythonProgram.step world) p).Consistent := by
  induction steps generalizing p with
  | nil => exact hp
  | cons step rest ih =>
    simp only [List.length_cons] at hbound
    have hstep := PythonProgram.step_consistent world hquiet p step hp (by omega)
    exact ih (p.step world step) hstep.1 (by omega)

/-- The counter is right as long as no destructor is left by an exception: in a program
whose Python functions never raise, after every sequence of fewer than 2^32 steps the
counter is the number of live objects, and the two pointers are non-null and the
interpreter is initialised exactly when the counter is positive. -/
theorem PythonProgram.counter_is_live_objects_when_nothing_raises (world : PythonWorld)
    (hquiet : ∀ f args, (world.call f args).raised = false)
    (steps : List ProgramStep) (hbound : steps.length < UINT32_RANGE) :
    (PythonProgram.run world steps).statics.m_init_num =
      (PythonProgram.run world steps).live.length ∧
    ((PythonProgram.run world steps).statics.m_interp_ptr ≠ none ↔
      0 < (PythonProgram.run world steps).statics.m_init_num) ∧
    ((PythonProgram.run world steps).statics.m_state_ptr ≠ none ↔
      0 < (PythonProgram.run world steps).statics.m_init_num) ∧
    ((PythonProgram.run world steps).statics.interpreterInitialised = true ↔
      0 < (PythonProgram.run world steps).statics.m_init_num) := by
  have h := PythonProgram.steps_consistent world hquiet steps
    { statics := PythonStatics.initial, live := [] }
    ⟨rfl, fun _ => ⟨rfl, rfl, rfl⟩, fun h => absurd h (by simp)⟩
    (by simpa using hbound)
  obtain ⟨hnum, hzero, hpos⟩ := h
  unfold PythonProgram.run
  refine ⟨hnum, ?_, ?_, ?_⟩
  all_goals
    rw [hnum]
    by_cases hlen : (List.foldl (PythonProgram.step world)
        { statics := PythonStatics.initial, live := [] } steps).live.length = 0
    · obtain ⟨h1, h2, h3⟩ := hzero hlen
      simp [hlen, h1, h2, h3, PythonStatics.interpreterInitialised]
    · have hlt := Nat.pos_of_ne_zero hlen
      obtain ⟨h1, h2, h3⟩ := hpos hlt
      simp [hlt, h1, h2, h3, PythonStatics.interpreterInitialised]

/-- C29, the defect: a program whose counter is the number of its live objects destroys a
live reactor that is running and whose Python `stop` function raises. The destructor
calls `stop()` first, and `PythonRuntimeException` leaves it before the counter is
decremented: the static members are as before, with one live object fewer, so the
counter is no longer the number of live objects. -/
theorem destructor_left_by_exception_keeps_counter (p : PythonProgram) (world : PythonWorld)
    (index : Nat) (r : PythonReactor) (stop_func : PyObject)
    (hcounter : p.statics.m_init_num = p.live.length)
    (hlive : p.live.get? index = some r)
    (hrunning : r.m_is_running = true)
    (hstop : r.m_stop_func = some stop_func)
    (hraise : (world.call stop_func none).raised = true) :
    (r.destruct p.statics world).thrown =
      some (PythonException.PythonRuntimeException
        (getPythonError (world.call stop_func none))) ∧
    (p.step world (ProgramStep.destroy index)).statics = p.statics ∧
    (p.step world (ProgramStep.destroy index)).live.length + 1 = p.live.length ∧
    (p.step world (ProgramStep.destroy index)).statics.m_init_num ≠
      (p.step world (ProgramStep.destroy index)).live.length := by
  have hthrown : (r.stop world).thrown =
      some (PythonException.PythonRuntimeException
        (getPythonError (world.call stop_func none))) := by
    simp [PythonReactor.stop, hrunning, hstop, hraise]
  have hdestruct : r.destruct p.statics world =
      { thrown := some (PythonException.PythonRuntimeException
          (getPythonError (world.call stop_func none))),
        statics := p.statics } := by
    simp [PythonReactor.destruct, hthrown]
  have hidx : index < p.live.length := by
    rcases Nat.lt_or_ge index p.live.length with h | h
    · exact h
    · rw [List.get?_eq_none.mpr h] at hlive; exact absurd hlive (by simp)
  have hlen : (p.live.eraseIdx index).length = p.live.length - 1 :=
    List.length_eraseIdx_of_lt hidx
  have hstep : p.step world (ProgramStep.destroy index) =
      { statics := p.statics, live := p.live.eraseIdx index } := by
    simp only [PythonProgram.step, hlive, hdestruct]
  rw [hstep]
  refine ⟨by rw [hdestruct], rfl, ?_, ?_⟩
  · show (p.live.eraseIdx index).length + 1 = p.live.length
    omega
  · show p.statics.m_init_num ≠ (p.live.eraseIdx index).length
    omega

/-- C29, the failing input: one reactor is constructed, configured with the source
`def stop(): raise`, started, and destroyed. Before the destruction there is one live
object and the counter is 1; afterwards no object is live, yet the counter is still 1,
both pointers are non-null and `Py_Finalize()` has not been called. -/
theorem destructor_left_by_exception_keeps_counter_witness :
    raisingStopProgram.live.length = 1 ∧
    raisingStopProgram.statics.m_init_num = 1 ∧
    (raisingStopProgram.step (exampleWorld "") (ProgramStep.destroy 0)).live = [] ∧
    (raisingStopProgram.step (exampleWorld "") (ProgramStep.destroy 0)).statics =
      { m_init_num := 1, m_interp_ptr := some INTERPRETER_ADDRESS,
        m_state_ptr := some STATE_PTR_ADDRESS, py_initialize_calls := 1,
        py_finalize_calls := 0 } ∧
    (raisingStopProgram.step (exampleWorld "")
      (ProgramStep.destroy 0)).statics.interpreterInitialised = true ∧
    (raisingStopProgram.step (exampleWorld "") (ProgramStep.destroy 0)).statics.m_init_num ≠
      (raisingStopProgram.step (exampleWorld "") (ProgramStep.destroy 0)).live.length :=
  have h := destructor_left_by_exception_keeps_counter raisingStopProgram (exampleWorld "") 0
    { m_id := "", m_source := "def stop(): raise", m_source_file := "",
      m_byte_code := some 20, m_module := some 21, m_start_func := none,
      m_stop_func := some 22, m_process_func := none, m_is_running := true, actions := [] }
    22 (by decide) (by decide) (by decide) (by decide) (by decide)
  ⟨by decide, by decide, by decide, by decide, by decide, h.2.2.2⟩

/-! ### TCP server: the armed accept along orderly runs -/

theorem TCPServer.finishConnection_armedInv (t : TCPServer) (conn : TCPConnectionPtr)
    (ht : t.ArmedInv) (hconn : conn ∉ t.m_tcp_acceptor.pending_accepts) :
    (t.finishConnection conn).ArmedInv := by
  obtain ⟨t1, t2, t3, t4, t5⟩ := ht
  refine ⟨t1, ?_, t3, t4, t5⟩
  intro hl
  obtain ⟨c, hc, hmem⟩ := t2 hl
  refine ⟨c, hc, ?_⟩
  simp only [TCPServer.finishConnection]
  refine Finset.mem_erase.mpr ⟨?_, hmem⟩
  intro heq
  apply hconn
  rw [hc, ← heq]
  exact List.mem_singleton.mpr rfl

theorem TCPServer.listen_armedInv (t : TCPServer) (hl : t.m_is_listening = true)
    (hp : t.m_tcp_acceptor.pending_accepts = [])
    (hq : ∀ c e, Handler.handleConnection c e ∈ t.io_service_queue →
      e = true ∧ c < t.heap_next)
    (hpc : ∀ c ∈ t.protocol_connections, c < t.heap_next) : t.listen.ArmedInv := by
  rw [TCPServer.listen, if_pos hl]
  simp only [TCPServer.ArmedInv, Acceptor.async_accept, hp, List.nil_append,
    List.mem_singleton]
  refine ⟨fun h => absurd (hl.symm.trans h) (by simp),
    fun _ => ⟨t.heap_next, rfl, Finset.mem_insert_self _ _⟩, ?_, ?_, ?_⟩
  · intro c hc; rw [hc]; exact Nat.lt_succ_self _
  · intro c e hmem
    obtain ⟨he, hlt⟩ := hq c e hmem
    exact ⟨he, Nat.lt_succ_of_lt hlt, Nat.ne_of_lt hlt⟩
  · intro c hmem
    exact ⟨Nat.lt_succ_of_lt (hpc c hmem), Nat.ne_of_lt (hpc c hmem)⟩

theorem TCPServer.handleStopRequest_armedInv (t : TCPServer) (ht : t.ArmedInv) :
    t.handleStopRequest.ArmedInv := by
  obtain ⟨t1, t2, t3, t4, t5⟩ := ht
  by_cases hl : t.m_is_listening = true
  · rw [TCPServer.handleStopRequest, if_pos hl]
    refine ⟨fun _ => rfl, fun h => absurd h (by simp), ?_, ?_, ?_⟩
    · intro c hc; simp [Acceptor.close, Acceptor.closed] at hc
    · intro c e hmem
      simp only [List.mem_append, List.mem_map] at hmem
      rcases hmem with hmem | ⟨c2, hc2, heq⟩
      · exact ⟨(t4 c e hmem).1, (t4 c e hmem).2.1, by simp [Acceptor.close, Acceptor.closed]⟩
      · injection heq with hc he
        subst hc
        exact ⟨he.symm, t3 c2 hc2, by simp [Acceptor.close, Acceptor.closed]⟩
    · intro c hmem
      exact ⟨(t5 c hmem).1, by simp [Acceptor.close, Acceptor.closed]⟩
  · rw [TCPServer.handleStopRequest, if_neg hl]
    exact ⟨t1, t2, t3, t4, t5⟩

theorem TCPServer.handleConnection_armedInv (t : TCPServer) (conn : TCPConnectionPtr)
    (hl : t.m_is_listening = true) (hp : t.m_tcp_acceptor.pending_accepts = [])
    (hq : ∀ c e, Handler.handleConnection c e ∈ t.io_service_queue →
      e = true ∧ c < t.heap_next)
    (hpc : ∀ c ∈ t.protocol_connections, c < t.heap_next) (hconn : conn < t.heap_next) :
    (t.handleConnection conn false).ArmedInv := by
  obtain ⟨i1, i2, i3, i4, i5⟩ := TCPServer.listen_armedInv t hl hp hq hpc
  have hnext : t.listen.heap_next = t.heap_next + 1 ∧
      t.listen.m_tcp_acceptor.pending_accepts = [t.heap_next] := by
    rw [TCPServer.listen, if_pos hl]
    simp [Acceptor.async_accept, hp]
  rw [TCPServer.handleConnection, if_neg (by simp), if_pos hl]
  refine ⟨i1, i2, i3, i4, ?_⟩
  intro c hm
  simp only [List.mem_append, List.mem_singleton] at hm
  rcases hm with hm | hm
  · exact i5 c hm
  · subst hm
    show c < t.listen.heap_next ∧ c ∉ t.listen.m_tcp_acceptor.pending_accepts
    rw [hnext.1, hnext.2]
    exact ⟨Nat.lt_succ_of_lt hconn, by simp [Nat.ne_of_lt hconn]⟩

theorem TCPServer.step_armedInv (s : TCPServer) (step : ServerStep) (hinv : s.ArmedInv)
    (horderly : s.orderlyStep step = true) : (s.step step).ArmedInv := by
  obtain ⟨h1, h2, h3, h4, h5⟩ := hinv
  cases step with
  | start =>
    simp only [TCPServer.step]
    by_cases hl : s.m_is_listening = true
    · rw [TCPServer.start, if_neg (by simp [hl])]
      exact ⟨h1, h2, h3, h4, h5⟩
    · have hl2 : s.m_is_listening = false := by simpa using hl
      rw [TCPServer.start, if_pos (by simp [hl2])]
      apply TCPServer.listen_armedInv
      · rfl
      · simp [Acceptor.listen, Acceptor.bind, Acceptor.set_reuse_address, Acceptor.open_,
          h1 hl2]
      · intro c e hmem; exact ⟨(h4 c e hmem).1, (h4 c e hmem).2.1⟩
      · intro c hmem; exact (h5 c hmem).1
  | stop =>
    simp only [TCPServer.step]
    by_cases hl : s.m_is_listening = true
    · rw [TCPServer.stop, if_pos hl]
      refine ⟨h1, h2, h3, ?_, h5⟩
      intro c e hmem
      simp only [List.mem_append, List.mem_singleton] at hmem
      rcases hmem with hmem | hmem
      · exact h4 c e hmem
      · exact absurd hmem (by simp)
    · rw [TCPServer.stop, if_neg hl]
      exact ⟨h1, h2, h3, h4, h5⟩
  | poll =>
    simp only [TCPServer.step, TCPServer.poll]
    cases hq : s.io_service_queue with
    | nil => exact ⟨h1, h2, h3, h4, h5⟩
    | cons handler rest =>
      have h4r : ∀ c e, Handler.handleConnection c e ∈ rest →
          e = true ∧ c < s.heap_next ∧ c ∉ s.m_tcp_acceptor.pending_accepts := by
        intro c e hmem
        apply h4
        rw [hq]
        exact List.mem_cons_of_mem _ hmem
      have hrest : TCPServer.ArmedInv { s with io_service_queue := rest } :=
        ⟨h1, h2, h3, h4r, h5⟩
      cases handler with
      | handleStopRequest =>
        exact TCPServer.handleStopRequest_armedInv _ hrest
      | handleConnection conn accept_error =>
        have hconn := h4 conn accept_error (by rw [hq]; exact List.mem_cons_self _ _)
        simp only [TCPServer.runHandler, TCPServer.handleConnection, hconn.1, if_true]
        exact TCPServer.finishConnection_armedInv _ conn hrest hconn.2.2
  | acceptCompleted conn accept_error =>
    simp only [TCPServer.orderlyStep, Bool.not_eq_true'] at horderly
    subst horderly
    simp only [TCPServer.step]
    by_cases hmem : conn ∈ s.m_tcp_acceptor.pending_accepts
    · rw [TCPServer.acceptCompleted, if_pos hmem]
      have hl : s.m_is_listening = true := by
        by_cases hl : s.m_is_listening = true
        · exact hl
        · rw [h1 (by simpa using hl)] at hmem; exact absurd hmem (by simp)
      obtain ⟨c, hc, hpool⟩ := h2 hl
      have hconn : conn = c := by rw [hc] at hmem; exact List.mem_singleton.mp hmem
      subst hconn
      have herase : s.m_tcp_acceptor.pending_accepts.erase conn = [] := by
        rw [hc]; simp
      exact TCPServer.handleConnection_armedInv _ conn hl herase
        (fun c e hm => ⟨(h4 c e hm).1, (h4 c e hm).2.1⟩) (fun c hm => (h5 c hm).1)
        (h3 conn hmem)
    · rw [TCPServer.acceptCompleted, if_neg hmem]
      exact ⟨h1, h2, h3, h4, h5⟩
  | finishConnection conn =>
    simp only [TCPServer.orderlyStep, decide_eq_true_eq] at horderly
    exact TCPServer.finishConnection_armedInv s conn ⟨h1, h2, h3, h4, h5⟩ (h5 conn horderly).2

theorem TCPServer.steps_armedInv (steps : List ServerStep) (s : TCPServer) (hinv : s.ArmedInv)
    (horderly : s.orderly steps = true) : (steps.foldl TCPServer.step s).ArmedInv := by
  induction steps generalizing s with
  | nil => exact hinv
  | cons step rest ih =>
    simp only [TCPServer.orderly, Bool.and_eq_true] at horderly
    exact ih (s.step step) (TCPServer.step_armedInv s step hinv horderly.1) horderly.2

/-- The invariant of C23 holds along orderly runs: in every state reached from a new
server through `start`, `stop`, the handlers run by the `io_service`, accepts that
complete without error and `finishConnection` calls by connections handed to the
protocol, a listening server has exactly one pooled connection awaiting an armed
accept. -/
theorem TCPServer.orderly_run_keeps_one_armed_accept (port : Nat) (steps : List ServerStep)
    (horderly : (TCPServer.create port).orderly steps = true)
    (hlistening : (TCPServer.run port steps).m_is_listening = true) :
    (TCPServer.run port steps).awaitingAccept.card = 1 := by
  have hinv : (TCPServer.run port steps).ArmedInv :=
    TCPServer.steps_armedInv steps (TCPServer.create port)
    ⟨fun _ => rfl, fun h => absurd h (by simp [TCPServer.create]),
      fun c hc => absurd hc (by simp [TCPServer.create, Acceptor.closed]),
      fun c e hc => absurd hc (by simp [TCPServer.create]),
      fun c hc => absurd hc (by simp [TCPServer.create])⟩ horderly
  obtain ⟨c, hc, hpool⟩ := hinv.2.1 hlistening
  have hset : (TCPServer.run port steps).awaitingAccept = {c} := by
    unfold TCPServer.awaitingAccept
    ext x
    simp only [Finset.mem_filter, Finset.mem_singleton]
    rw [hc]
    constructor
    · rintro ⟨_, hx⟩; exact List.mem_singleton.mp hx
    · rintro rfl; exact ⟨hpool, List.mem_singleton.mpr rfl⟩
  rw [hset]
  exact Finset.card_singleton c


end Pion
